import Mathlib

/-!
Shallow embedding of the greencart backend order-fulfillment core
(src/core/views.py, src/core/models.py, src/core/analytics_cross.py,
src/core/management/commands/fix_orders_with_zero_impact.py).

Conventions of the embedding:
* Python `Decimal` values are modelled as `ℚ`; `Decimal.quantize` with the
  default rounding (ROUND_HALF_EVEN) and with ROUND_HALF_UP are modelled
  explicitly below.
* Django querysets are lists; `.get` returning no row is an exception
  (rolls the transaction back), `.filter(...).update(...)` rewrites rows in
  place and bypasses model `save()` hooks.
* `select_related` on a non-nullable foreign key is an inner join: bundle
  component rows whose product row is absent simply drop out of the queryset.
* JSON dictionary keys that a writer never sets and a reader fetches with
  `.get` are modelled as `Option` fields holding `none`.
* The nullable `discounted_price` column is modelled as always set; the
  address/payment tables, geography payloads of the snapshot and the cart
  cleanup at the end of checkout are out of the modelled claims and omitted.
* Database CHECK constraints of PositiveIntegerField columns are not
  modelled; stocks are `ℤ`.
-/

namespace GreenCart

/-- Banker rounding to an integer: Python `Decimal` ROUND_HALF_EVEN. -/
def roundHalfEven (x : ℚ) : ℤ :=
  let f : ℤ := ⌊x⌋
  let r : ℚ := x - f
  if r < 1/2 then f
  else if 1/2 < r then f + 1
  else if f % 2 = 0 then f else f + 1

/-- Python `Decimal` ROUND_HALF_UP: ties round away from zero. -/
def roundHalfUp (x : ℚ) : ℤ :=
  if 0 ≤ x then ⌊x + 1/2⌋ else -⌊1/2 - x⌋

/-- `value.quantize(Decimal("0.01"))` with the default rounding. -/
def quantize2 (x : ℚ) : ℚ := (roundHalfEven (x * 100) : ℚ) / 100

/-- `value.quantize(Decimal("0.001"))` with ROUND_HALF_UP. -/
def quantize3up (x : ℚ) : ℚ := (roundHalfUp (x * 1000) : ℚ) / 1000

/-! ## Data model (src/core/models.py) -/

inductive BundleStatus
  | draft
  | published
  | archived
  | outOfStock
deriving DecidableEq, Repr

/-- `ProductBundle` (the columns the fulfillment core touches). -/
structure Bundle where
  id : ℕ
  title : String
  stock : ℤ
  originalPrice : ℚ
  discountedPrice : ℚ
  status : BundleStatus
  soldBundles : ℤ
deriving DecidableEq, Repr

/-- `ProductBundleItem`: one component of a bundle. -/
structure BundleComponent where
  bundleId : ℕ
  productId : ℕ
  quantity : ℤ
deriving DecidableEq, Repr

/-- `Product` (the columns the fulfillment core touches). -/
structure Product where
  id : ℕ
  title : String
  stock : ℤ
  soldUnits : ℤ
  companyId : ℕ
  catalogEntryId : ℕ
  unit : String
deriving DecidableEq, Repr

structure Company where
  id : ℕ
  name : String
  ownerId : ℕ
deriving DecidableEq, Repr

/-- `CustomUser` fields used by `_producer_from_company`. -/
structure UserRec where
  id : ℕ
  publicDisplayName : Option String
  firstName : String
  lastName : String
  email : String
deriving DecidableEq, Repr

/-- `ProductCatalog`. -/
structure Catalog where
  id : ℕ
  categoryId : ℕ
deriving DecidableEq, Repr

/-- `ProductCategory`. -/
structure Category where
  id : ℕ
  label : String
deriving DecidableEq, Repr

/-- `ProductImpact`: (catalog entry, unit, base quantity) → impact figures. -/
structure ImpactRow where
  catalogId : ℕ
  unit : String
  quantity : ℚ
  avoidedWasteKg : ℚ
  avoidedCo2Kg : ℚ
deriving DecidableEq, Repr

/-- One entry of the `products` list inside `bundle_snapshot`. Checkout
writes only the first five keys; the company/producer keys are read by
analytics and rewards code with `.get` and are `none` when absent. -/
structure ProductSnap where
  productId : ℕ
  productTitle : String
  perBundleQuantity : ℤ
  categoryId : Option ℕ
  categoryName : Option String
  companyId : Option ℕ
  companyName : Option String
  producerId : Option ℕ
  producerName : Option String
deriving DecidableEq, Repr

/-- The frozen `bundle_snapshot` JSON written at order-item creation. -/
structure BundleSnapshot where
  id : ℕ
  title : String
  originalPrice : ℚ
  discountedPrice : ℚ
  stockBefore : ℤ
  stockAfter : ℤ
  companyId : Option ℕ
  companyName : Option String
  producerId : Option ℕ
  producerName : Option String
  products : List ProductSnap
deriving DecidableEq, Repr

structure Order where
  id : ℕ
  userId : ℕ
  subtotal : ℚ
  shippingCost : ℚ
  totalPrice : ℚ
  wasteKg : ℚ
  co2Kg : ℚ
  savings : ℚ
deriving DecidableEq, Repr

structure OrderItem where
  id : ℕ
  orderId : ℕ
  bundleId : Option ℕ
  quantity : ℤ
  totalPrice : ℚ
  wasteKg : ℚ
  co2Kg : ℚ
  savings : ℚ
  snapshot : Option BundleSnapshot
  isActive : Bool
deriving DecidableEq, Repr

structure RewardTier where
  id : ℕ
  title : String
  description : String
  minOrders : ℤ
  minWasteKg : ℚ
  minCo2Kg : ℚ
  minProducersSupported : ℤ
  minSavingsEur : ℚ
  isActive : Bool
deriving DecidableEq, Repr

/-- A `Reward` row. `update_rewards_for_order` creates rows without passing
`tier`, so `tierId` stays `none` on every grant. -/
structure Reward where
  userId : ℕ
  title : String
  description : String
  tierId : Option ℕ
deriving DecidableEq, Repr

structure RewardProgress where
  userId : ℕ
  totalOrders : ℤ
  totalWasteKg : ℚ
  totalCo2Kg : ℚ
  totalSavingsEur : ℚ
  producersSupported : ℤ
  seenProducerIds : List ℕ
deriving DecidableEq, Repr

/-- The relational store, one list per table. -/
structure DB where
  bundles : List Bundle
  bundleComponents : List BundleComponent
  products : List Product
  companies : List Company
  users : List UserRec
  catalogs : List Catalog
  categories : List Category
  impacts : List ImpactRow
  orders : List Order
  orderItems : List OrderItem
  tiers : List RewardTier
  rewards : List Reward
  progresses : List RewardProgress
deriving DecidableEq, Repr

def findBundle (db : DB) (bid : ℕ) : Option Bundle :=
  db.bundles.find? (fun b => b.id = bid)

def findProduct (db : DB) (pid : ℕ) : Option Product :=
  db.products.find? (fun p => p.id = pid)

def findCompany (db : DB) (cid : ℕ) : Option Company :=
  db.companies.find? (fun c => c.id = cid)

def findOrder (db : DB) (oid : ℕ) : Option Order :=
  db.orders.find? (fun o => o.id = oid)

/-- `ProductBundleItem.objects.select_related("product...").filter(bundle=bundle)`:
the inner join of components with their product rows, in table order. -/
def bundleComps (db : DB) (bid : ℕ) : List (BundleComponent × Product) :=
  (db.bundleComponents.filter (fun c => c.bundleId = bid)).filterMap
    (fun c => (findProduct db c.productId).map (fun p => (c, p)))

/-- `order.items.all()` through the reverse related manager: `OrderItem`
declares `objects = ActiveManager()`, so only `is_active=True` rows. -/
def activeItemsOf (db : DB) (oid : ℕ) : List OrderItem :=
  db.orderItems.filter (fun oi => oi.orderId = oid && oi.isActive)

/-! ## Model-level operations (src/core/models.py) -/

/-- `ProductBundle.save` (models.py 373-379): flips a published bundle to
out_of_stock when its stock is 0, then persists. -/
def productBundleSave (b : Bundle) : Bundle :=
  if b.stock = 0 ∧ b.status = .published then { b with status := .outOfStock } else b

/-- `Order.update_totals` (models.py 517-527): re-sums the three impact and
savings totals of the order from its items (the related manager yields only
active items). Subtotal, shipping and total price are not touched. -/
def updateTotals (db : DB) (o : Order) : Order :=
  let its := activeItemsOf db o.id
  { o with
    wasteKg := (its.map (fun oi => oi.wasteKg)).sum
    co2Kg := (its.map (fun oi => oi.co2Kg)).sum
    savings := (its.map (fun oi => oi.savings)).sum }

/-- `OrderItem.calculate_savings` (models.py 560-565): savings from the
frozen snapshot prices, 0 when the item has no snapshot. -/
def calculateSavings (snapshot : Option BundleSnapshot) (quantity : ℤ) : ℚ :=
  match snapshot with
  | some s => (s.originalPrice - s.discountedPrice) * quantity
  | none => 0

def replaceOrder (orders : List Order) (o : Order) : List Order :=
  orders.map (fun x => if x.id = o.id then o else x)

/-- Refresh the parent order after an item write: `self.order.update_totals();
self.order.save()`, guarded by `if self.order_id:` (falsy for 0 / None). -/
def refreshParentOrder (db : DB) (orderId : ℕ) : DB :=
  if orderId = 0 then db
  else
    match findOrder db orderId with
    | none => db
    | some o => { db with orders := replaceOrder db.orders (updateTotals db o) }

/-- `OrderItem.save` (models.py 567-572) with no `update_fields`: recompute
the item savings from the snapshot, persist the row (insert or replace by
id), then refresh the parent order totals. -/
def saveOrderItem (db : DB) (oi : OrderItem) : DB :=
  let oi := { oi with savings := calculateSavings oi.snapshot oi.quantity }
  let rows :=
    if db.orderItems.any (fun x => x.id = oi.id) then
      db.orderItems.map (fun x => if x.id = oi.id then oi else x)
    else db.orderItems ++ [oi]
  refreshParentOrder { db with orderItems := rows } oi.orderId

/-- `OrderItem.soft_deactivate` (models.py 555-558): sets `is_active=False`
and saves with `update_fields` limited to the flags, so the in-memory
savings recomputation of `save` is not persisted; the parent order totals
are still refreshed. -/
def softDeactivateItem (db : DB) (itemId : ℕ) : DB :=
  match db.orderItems.find? (fun x => x.id = itemId) with
  | none => db
  | some oi =>
    let rows := db.orderItems.map
      (fun x => if x.id = itemId then { x with isActive := false } else x)
    refreshParentOrder { db with orderItems := rows } oi.orderId

/-! ## Checkout (src/core/views.py, `OrderViewSet.create`) -/

/-- One entry of `request.data["items"]`; the two impact figures are read
with `item.get(..., 0)`, so they default to 0. -/
structure ReqItem where
  bundleId : ℕ
  quantity : ℤ
  wasteKg : ℚ
  co2Kg : ℚ
deriving DecidableEq, Repr

structure CheckoutRequest where
  userId : ℕ
  items : List ReqItem
  shippingCost : ℚ
  orderWasteKg : ℚ
  orderCo2Kg : ℚ
deriving DecidableEq, Repr

/-- One entry of the structured 409 payload for short components. -/
structure ShortProduct where
  productId : ℕ
  title : String
  stockBefore : ℤ
  stockAfter : ℤ
  perBundleQuantity : ℤ
deriving DecidableEq, Repr

inductive Response
  | badRequest
  | conflictBundle (title : String)
  | conflictProducts (shorts : List ShortProduct)
  | serverError
  | created (orderId : ℕ)
deriving DecidableEq, Repr

/-- Rows locked by `select_for_update` during a checkout. -/
inductive LockedRow
  | bundleRow (id : ℕ)
  | productRow (id : ℕ)
deriving DecidableEq, Repr

def LockedRow.rowId : LockedRow → ℕ
  | .bundleRow i => i
  | .productRow i => i

/-- `_producer_from_company` (views.py 1115-1129). -/
def producerFromCompany (db : DB) (c : Company) : Option ℕ × Option String :=
  match db.users.find? (fun u => u.id = c.ownerId) with
  | none => (none, none)
  | some u =>
    let nameOrEmail :=
      let s := (u.firstName.trim ++ " " ++ u.lastName.trim).trim
      if s = "" then u.email else s
    let display :=
      match u.publicDisplayName with
      | some d => if d = "" then nameOrEmail else d
      | none => nameOrEmail
    (some u.id, some display)

/-- One entry of the `products` list of the snapshot (views.py 1244-1260):
category resolved through `product.catalog_entry.category` inside
`try/except`; no company or producer keys are written. -/
def mkProductSnap (db : DB) (c : BundleComponent) (p : Product) : ProductSnap :=
  let cat := (db.catalogs.find? (fun ce => ce.id = p.catalogEntryId)).bind
    (fun ce => db.categories.find? (fun k => k.id = ce.categoryId))
  { productId := p.id
    productTitle := p.title
    perBundleQuantity := c.quantity
    categoryId := cat.map (fun k => k.id)
    categoryName := cat.map (fun k => k.label)
    companyId := none
    companyName := none
    producerId := none
    producerName := none }

/-- The `bundle_snapshot` dict (views.py 1262-1305): company and producer
are taken once, from the company of the first component's product
(`cached_first(bundle_items)`). -/
def mkBundleSnapshot (db : DB) (bundle : Bundle) (stockBefore stockAfter : ℤ)
    (comps : List (BundleComponent × Product)) : BundleSnapshot :=
  let attribution :=
    match comps.head? with
    | none => (none, none, none, none)
    | some cp =>
      match findCompany db cp.2.companyId with
      | none => (none, none, none, none)
      | some comp =>
        let pr := producerFromCompany db comp
        (some comp.id, some comp.name, pr.1, pr.2)
  { id := bundle.id
    title := bundle.title
    originalPrice := bundle.originalPrice
    discountedPrice := bundle.discountedPrice
    stockBefore := stockBefore
    stockAfter := stockAfter
    companyId := attribution.1
    companyName := attribution.2.1
    producerId := attribution.2.2.1
    producerName := attribution.2.2.2
    products := comps.map (fun cp => mkProductSnap db cp.1 cp.2) }

/-- `Product.objects.filter(id=...).update(stock=F("stock") - units,
sold_units=F("sold_units") + units)`. -/
def decProductStock (ps : List Product) (pid : ℕ) (units : ℤ) : List Product :=
  ps.map (fun p =>
    if p.id = pid then { p with stock := p.stock - units, soldUnits := p.soldUnits + units }
    else p)

/-- `ProductBundle.objects.filter(id=...).update(stock=F("stock") - q,
sold_bundles=F("sold_bundles") + q)`: a queryset update, so the
`ProductBundle.save` status hook does not run. -/
def decBundleStock (bs : List Bundle) (bid : ℕ) (q : ℤ) : List Bundle :=
  bs.map (fun b =>
    if b.id = bid then { b with stock := b.stock - q, soldBundles := b.soldBundles + q }
    else b)

def freshOrderId (db : DB) : ℕ :=
  db.orders.foldl (fun m o => max m o.id) 0 + 1

def freshItemId (db : DB) : ℕ :=
  db.orderItems.foldl (fun m oi => max m oi.id) 0 + 1

/-- Outcome of the per-item loop of `create`. A `ret` is a `return` executed
inside `with transaction.atomic()`: the block exits normally, so everything
done so far commits. An `exc` is an uncaught exception: the transaction
rolls back. -/
inductive LoopOut
  | ok (db : DB) (subtotal savings : ℚ)
  | ret (db : DB) (resp : Response)
  | exc
deriving Repr

/-! ## Reward progression (src/core/views.py 155-195) -/

/-- The inner loop of `_collect_producer_ids_from_order`: `if cid:
ids.add(int(cid))` over one snapshot's `products` list. -/
def insertSnapCompanies (s : Finset ℕ) (ps : List ProductSnap) : Finset ℕ :=
  ps.foldl
    (fun s2 p =>
      match p.companyId with
      | some cid => if cid ≠ 0 then insert cid s2 else s2
      | none => s2)
    s

/-- `_collect_producer_ids_from_order` (views.py 155-162): the set of
truthy `company_id` values found in the `products` lists of the order's
items' snapshots. Nothing else is consulted. -/
def collectProducerIdsFromOrder (db : DB) (oid : ℕ) : Finset ℕ :=
  (activeItemsOf db oid).foldl
    (fun s oi => insertSnapCompanies s (oi.snapshot.elim [] (fun sn => sn.products)))
    ∅

def defaultProgress (uid : ℕ) : RewardProgress :=
  { userId := uid, totalOrders := 0, totalWasteKg := 0, totalCo2Kg := 0
    totalSavingsEur := 0, producersSupported := 0, seenProducerIds := [] }

def upsertProgress (ps : List RewardProgress) (prog : RewardProgress) : List RewardProgress :=
  if ps.any (fun x => x.userId = prog.userId) then
    ps.map (fun x => if x.userId = prog.userId then prog else x)
  else ps ++ [prog]

/-- The grant loop of `update_rewards_for_order` (views.py 181-195):
`owned` is the set of titles the user already has, computed once; for each
active tier not owned by title whose five thresholds are all met a Reward
row is created — without passing `tier`, so `tierId` is `none`. -/
def grantRewards (db : DB) (uid : ℕ) (prog : RewardProgress) : DB :=
  let owned := (db.rewards.filter (fun r => r.userId = uid)).map (fun r => r.title)
  let newRewards := (db.tiers.filter (fun t => t.isActive)).filterMap
    (fun t =>
      if owned.contains t.title then none
      else if prog.totalOrders ≥ t.minOrders ∧ prog.totalWasteKg ≥ t.minWasteKg ∧
              prog.totalCo2Kg ≥ t.minCo2Kg ∧
              prog.producersSupported ≥ t.minProducersSupported ∧
              prog.totalSavingsEur ≥ t.minSavingsEur then
        some { userId := uid, title := t.title, description := t.description,
               tierId := none }
      else none)
  { db with rewards := db.rewards ++ newRewards }

/-- `update_rewards_for_order` (views.py 164-195). -/
def updateRewardsForOrder (db : DB) (oid : ℕ) : DB :=
  match findOrder db oid with
  | none => db
  | some o =>
    let prog := ((db.progresses.find? (fun x => x.userId = o.userId)).getD
      (defaultProgress o.userId))
    let prog := { prog with
      totalOrders := prog.totalOrders + 1
      totalWasteKg := quantize2 (prog.totalWasteKg + o.wasteKg)
      totalCo2Kg := quantize2 (prog.totalCo2Kg + o.co2Kg)
      totalSavingsEur := quantize2 (prog.totalSavingsEur + o.savings) }
    let newIds := collectProducerIdsFromOrder db oid
    let merged := (prog.seenProducerIds.toFinset ∪ newIds).sort (· ≤ ·)
    let prog := { prog with
      seenProducerIds := merged
      producersSupported := (merged.length : ℤ) }
    let db := { db with progresses := upsertProgress db.progresses prog }
    grantRewards db o.userId prog

/-! ## The checkout transaction -/

/-- The `insuff` list of views.py 1202-1213: every component short of
`quantity_per_bundle × requested_quantity`, with stock before/after. -/
def shortComponents (comps : List (BundleComponent × Product)) (quantity : ℤ) :
    List ShortProduct :=
  comps.filterMap (fun cp =>
    let required := cp.1.quantity * quantity
    if cp.2.stock < required then
      some { productId := cp.1.productId, title := cp.2.title,
             stockBefore := cp.2.stock, stockAfter := cp.2.stock - required,
             perBundleQuantity := cp.1.quantity }
    else none)

/-- The success path of one loop iteration (views.py 1221-1316): decrement
every component product, decrement the bundle, snapshot it, and create the
order item (which by `OrderItem.save` refreshes the parent totals). -/
def applyCheckoutItem (orderId : ℕ) (db : DB) (it : ReqItem) (bundle : Bundle) : DB :=
  let comps := bundleComps db bundle.id
  let db1 := { db with products :=
    (comps.foldl
      (fun ps (cp : BundleComponent × Product) =>
        decProductStock ps cp.1.productId (cp.1.quantity * it.quantity))
      db.products) }
  let stockBefore := bundle.stock
  let db2 := { db1 with bundles := decBundleStock db1.bundles bundle.id it.quantity }
  let snap := mkBundleSnapshot db2 bundle stockBefore (stockBefore - it.quantity) comps
  saveOrderItem db2
    { id := freshItemId db2, orderId := orderId, bundleId := some bundle.id
      quantity := it.quantity, totalPrice := quantize2 (bundle.discountedPrice * it.quantity)
      wasteKg := it.wasteKg, co2Kg := it.co2Kg
      savings := (bundle.originalPrice - bundle.discountedPrice) * it.quantity
      snapshot := some snap, isActive := true }

/-- The body of `for item in items_data` (views.py 1180-1316), with the
lock trace of every `select_for_update` row accumulated alongside. -/
def checkoutItems (orderId : ℕ) :
    DB → ℚ → ℚ → List ReqItem → LoopOut × List LockedRow
  | db, subtotal, savings, [] => (.ok db subtotal savings, [])
  | db, subtotal, savings, it :: rest =>
    match findBundle db it.bundleId with
    | none => (.exc, [])
    | some bundle =>
      let lock := LockedRow.bundleRow bundle.id
      if bundle.stock < it.quantity then
        (.ret db (.conflictBundle bundle.title), [lock])
      else
        let shorts := shortComponents (bundleComps db bundle.id) it.quantity
        if shorts ≠ [] then
          (.ret db (.conflictProducts shorts), [lock])
        else
          let db := applyCheckoutItem orderId db it bundle
          let out := checkoutItems orderId db
            (subtotal + quantize2 (bundle.discountedPrice * it.quantity))
            (savings + (bundle.originalPrice - bundle.discountedPrice) * it.quantity) rest
          (out.1, lock :: out.2)

/-- The `Order.objects.create` of views.py 1157-1178: zero subtotal and
total, shipping and the two order-level impact figures from the request. -/
def initialOrder (db0 : DB) (req : CheckoutRequest) : Order :=
  { id := freshOrderId db0, userId := req.userId, subtotal := 0
    shippingCost := req.shippingCost, totalPrice := 0
    wasteKg := req.orderWasteKg, co2Kg := req.orderCo2Kg, savings := 0 }

def withNewOrder (db0 : DB) (req : CheckoutRequest) : DB :=
  { db0 with orders := db0.orders ++ [initialOrder db0 req] }

/-- `OrderViewSet.create` (views.py 1133-1344) together with its lock
trace. The whole body runs inside `with transaction.atomic()`: an early
`return` commits the work done so far, an uncaught exception (a bundle id
with no row) rolls everything back. Address, payment and cart side tables
are out of the modelled scope. -/
def checkoutCore (db0 : DB) (req : CheckoutRequest) : (DB × Response) × List LockedRow :=
  if req.items = [] then ((db0, .badRequest), [])
  else
    let orderId := freshOrderId db0
    let db := withNewOrder db0 req
    match checkoutItems orderId db 0 0 req.items with
    | (.exc, locks) => ((db0, .serverError), locks)
    | (.ret db resp, locks) => ((db, resp), locks)
    | (.ok db subtotal savings, locks) =>
      let db :=
        match findOrder db orderId with
        | none => db
        | some o =>
          { db with orders :=
            (replaceOrder db.orders
              { o with
                subtotal := quantize2 subtotal
                totalPrice := quantize2 (subtotal + req.shippingCost)
                savings := quantize2 savings }) }
      let db := updateRewardsForOrder db orderId
      ((db, .created orderId), locks)

def checkout (db0 : DB) (req : CheckoutRequest) : DB × Response :=
  (checkoutCore db0 req).1

def checkoutLockTrace (db0 : DB) (req : CheckoutRequest) : List LockedRow :=
  (checkoutCore db0 req).2

/-! ## Attribution (src/core/analytics_cross.py, ProducerShareInOrdersView) -/

def addRevenue (l : List (ℕ × ℚ)) (k : ℕ) (v : ℚ) : List (ℕ × ℚ) :=
  if l.any (fun kv => kv.1 = k) then
    l.map (fun kv => if kv.1 = k then (kv.1, kv.2 + v) else kv)
  else l ++ [(k, v)]

/-- The inner loop of `ProducerShareInOrdersView.get`: add `share` to
`by_producer[cid]` for every snapshot product entry with a truthy
`company_id`. -/
def accumulateShares (acc : List (ℕ × ℚ)) (ps : List ProductSnap) (share : ℚ) :
    List (ℕ × ℚ) :=
  ps.foldl
    (fun acc2 p =>
      match p.companyId with
      | some cid => if cid ≠ 0 then addRevenue acc2 cid share else acc2
      | none => acc2)
    acc

/-- The per-order `by_producer` accumulation of
`ProducerShareInOrdersView.get` (analytics_cross.py 940-955): each item's
price is divided by the NUMBER of snapshot product entries and that equal
share is added to every entry carrying a truthy `company_id`. -/
def byProducerRevenue (items : List OrderItem) : List (ℕ × ℚ) :=
  items.foldl
    (fun acc it =>
      let prods := it.snapshot.elim [] (fun sn => sn.products)
      if prods = [] then acc
      else accumulateShares acc prods (it.totalPrice / (prods.length : ℚ)))
    []

def revenueOf (l : List (ℕ × ℚ)) (k : ℕ) : ℚ :=
  ((l.find? (fun kv => kv.1 = k)).map (fun kv => kv.2)).getD 0

/-- A snapshot product entry with a truthy `company_id` (the condition under
which `ProducerShareInOrdersView` credits the entry a share). -/
def hasCompany (p : ProductSnap) : Bool :=
  match p.companyId with
  | some cid => decide (cid ≠ 0)
  | none => false

/-! ## Impact recomputation
(src/core/management/commands/fix_orders_with_zero_impact.py) -/

/-- `.filter(product=..., unit=...).order_by("quantity").first()`. -/
def smallestImpactRow (rows : List ImpactRow) : Option ImpactRow :=
  rows.foldl
    (fun acc r =>
      match acc with
      | none => some r
      | some m => if r.quantity < m.quantity then some r else acc)
    none

def impactRowsFor (db : DB) (catalogId : ℕ) (unit : String) : List ImpactRow :=
  db.impacts.filter (fun r => r.catalogId = catalogId && r.unit = unit)

/-- The contribution of one resolved component inside
`recompute_item_from_bundle`: skipped (zero) when no impact row exists or
its base quantity is 0, else `(bi.quantity / base_qty) × impact`. -/
def componentRecomputeContribution (db : DB) (c : BundleComponent) (p : Product) : ℚ × ℚ :=
  match smallestImpactRow (impactRowsFor db p.catalogEntryId p.unit) with
  | none => (0, 0)
  | some row =>
    if row.quantity = 0 then (0, 0)
    else ((c.quantity : ℚ) / row.quantity * row.avoidedWasteKg,
          (c.quantity : ℚ) / row.quantity * row.avoidedCo2Kg)

/-- `recompute_item_from_bundle` (fix_orders_with_zero_impact.py 11-38):
walks `bundle.items.all()` (every component row, the plain manager), reads
each `bi.product` (`none` = the DoesNotExist exception on a dangling
foreign key), accumulates the contributions and quantizes half-up to
0.001. The purchased quantity of the order item is never used. -/
def recomputeItemFromBundle (db : DB) (bundleId : ℕ) : Option (ℚ × ℚ) :=
  ((db.bundleComponents.filter (fun c => c.bundleId = bundleId)).mapM
    (fun c => (findProduct db c.productId).map (fun p => (c, p)))).map
    (fun comps =>
      let acc := comps.foldl
        (fun (wc : ℚ × ℚ) cp =>
          let contribution := componentRecomputeContribution db cp.1 cp.2
          (wc.1 + contribution.1, wc.2 + contribution.2))
        (0, 0)
      (quantize3up acc.1, quantize3up acc.2))

/-- Modelled from the spec (§4.2 Impact & Savings Calculator): the impact
the claim says an order line carries — for each bundle component with an
impact row, `quantity_per_bundle × bundle_quantity / impact_row.quantity`
times the row's figures, components without an impact row (or with a zero
base quantity) contributing zero. No code in the repository computes this
quantity; it exists here only to compare the claim against the code. -/
def specLineImpact (db : DB) (bundleId : ℕ) (bundleQuantity : ℤ) : ℚ × ℚ :=
  (db.bundleComponents.filter (fun c => c.bundleId = bundleId)).foldl
    (fun (wc : ℚ × ℚ) c =>
      match findProduct db c.productId with
      | none => wc
      | some p =>
        match smallestImpactRow (impactRowsFor db p.catalogEntryId p.unit) with
        | none => wc
        | some row =>
          if row.quantity = 0 then wc
          else
            let m := (c.quantity * bundleQuantity : ℚ) / row.quantity
            (wc.1 + m * row.avoidedWasteKg, wc.2 + m * row.avoidedCo2Kg))
    (0, 0)

/-! ## Concrete stores used to evaluate the claims -/

def cat1 : Category := { id := 1, label := "Fruits" }

def cl1 : Catalog := { id := 1, categoryId := 1 }

def u3 : UserRec :=
  { id := 3, publicDisplayName := some "Alice Farm", firstName := "Alice"
    lastName := "A", email := "alice@ferme.fr" }

def u4 : UserRec :=
  { id := 4, publicDisplayName := some "Bob Farm", firstName := "Bob"
    lastName := "B", email := "bob@ferme.fr" }

def co7 : Company := { id := 7, name := "Ferme A", ownerId := 3 }

def co8 : Company := { id := 8, name := "Ferme B", ownerId := 4 }

def p1 : Product :=
  { id := 1, title := "Pommes", stock := 100, soldUnits := 0, companyId := 7
    catalogEntryId := 1, unit := "kg" }

def p2 : Product :=
  { id := 2, title := "Poires", stock := 50, soldUnits := 0, companyId := 8
    catalogEntryId := 1, unit := "kg" }

def b1 : Bundle :=
  { id := 1, title := "Panier A", stock := 5, originalPrice := 10
    discountedPrice := 8, status := .published, soldBundles := 0 }

def b2 : Bundle :=
  { id := 2, title := "Panier B", stock := 0, originalPrice := 6
    discountedPrice := 5, status := .published, soldBundles := 0 }

def imp1 : ImpactRow :=
  { catalogId := 1, unit := "kg", quantity := 1, avoidedWasteKg := 5, avoidedCo2Kg := 2 }

/-- Two published bundles, the second out of stock; each wraps one product. -/
def dbC1 : DB :=
  { bundles := [b1, b2]
    bundleComponents := [⟨1, 1, 2⟩, ⟨2, 2, 1⟩]
    products := [p1, p2]
    companies := [co7, co8]
    users := [u3, u4]
    catalogs := [cl1]
    categories := [cat1]
    impacts := [imp1]
    orders := [], orderItems := [], tiers := [], rewards := [], progresses := [] }

def reqC1 : CheckoutRequest :=
  { userId := 9, items := [⟨1, 1, 0, 0⟩, ⟨2, 1, 0, 0⟩]
    shippingCost := 0, orderWasteKg := 0, orderCo2Kg := 0 }

/-- One bundle of one component with an impact row for its catalog entry. -/
def dbC3 : DB :=
  { dbC1 with bundles := [b1], bundleComponents := [⟨1, 1, 1⟩], products := [p1] }

def reqC3 : CheckoutRequest :=
  { userId := 9, items := [⟨1, 2, 0, 0⟩]
    shippingCost := 0, orderWasteKg := 0, orderCo2Kg := 0 }

/-- One bundle whose two components belong to two different companies. -/
def dbC4 : DB :=
  { dbC1 with bundles := [b1], bundleComponents := [⟨1, 1, 2⟩, ⟨1, 2, 1⟩] }

def reqC4 : CheckoutRequest :=
  { userId := 9, items := [⟨1, 1, 0, 0⟩]
    shippingCost := 0, orderWasteKg := 0, orderCo2Kg := 0 }

/-- A snapshot in the historical shape carrying per-component company ids
(which the attribution code reads): two components of per-bundle
quantities 2 and 1 held by companies 1 and 2. -/
def snap90 : BundleSnapshot :=
  { id := 1, title := "Duo", originalPrice := 100, discountedPrice := 90
    stockBefore := 3, stockAfter := 2
    companyId := some 1, companyName := some "C1"
    producerId := some 11, producerName := some "P1"
    products := [
      { productId := 1, productTitle := "X", perBundleQuantity := 2
        categoryId := none, categoryName := none
        companyId := some 1, companyName := some "C1"
        producerId := some 11, producerName := some "P1" },
      { productId := 2, productTitle := "Y", perBundleQuantity := 1
        categoryId := none, categoryName := none
        companyId := some 2, companyName := some "C2"
        producerId := some 12, producerName := some "P2" }] }

/-- An order line of 90 over the two components of `snap90`. -/
def item90 : OrderItem :=
  { id := 1, orderId := 1, bundleId := some 1, quantity := 1, totalPrice := 90
    wasteKg := 0, co2Kg := 0, savings := 0
    snapshot := some snap90
    isActive := true }

def t1 : RewardTier :=
  { id := 1, title := "Bronze", description := "d1", minOrders := 0
    minWasteKg := 0, minCo2Kg := 0, minProducersSupported := 0
    minSavingsEur := 0, isActive := true }

def t2 : RewardTier :=
  { id := 2, title := "Argent", description := "d2", minOrders := 0
    minWasteKg := 0, minCo2Kg := 0, minProducersSupported := 0
    minSavingsEur := 0, isActive := true }

def o1 : Order :=
  { id := 1, userId := 9, subtotal := 0, shippingCost := 0, totalPrice := 0
    wasteKg := 0, co2Kg := 0, savings := 0 }

/-- One confirmed order and two active zero-threshold reward tiers. -/
def dbC6 : DB :=
  { bundles := [], bundleComponents := [], products := [], companies := []
    users := [], catalogs := [], categories := [], impacts := []
    orders := [o1], orderItems := [], tiers := [t1, t2], rewards := []
    progresses := [] }

def o7 : Order :=
  { id := 1, userId := 9, subtotal := 0, shippingCost := 5, totalPrice := 5
    wasteKg := 0, co2Kg := 0, savings := 0 }

def it7 : OrderItem :=
  { id := 1, orderId := 1, bundleId := none, quantity := 1, totalPrice := 10
    wasteKg := 3, co2Kg := 2, savings := 4, snapshot := none, isActive := true }

/-- An order with zero stored subtotal and one active item of price 10. -/
def dbC7 : DB :=
  { dbC6 with orders := [o7], orderItems := [it7], tiers := [] }

def reqC8 : CheckoutRequest :=
  { userId := 9, items := [⟨1, 5, 0, 0⟩]
    shippingCost := 0, orderWasteKg := 0, orderCo2Kg := 0 }

def b2rich : Bundle := { b2 with stock := 4 }

/-- Two purchasable bundles, requested in descending id order. -/
def dbC9 : DB := { dbC1 with bundles := [b1, b2rich] }

def reqC9 : CheckoutRequest :=
  { userId := 9, items := [⟨2, 1, 0, 0⟩, ⟨1, 1, 0, 0⟩]
    shippingCost := 0, orderWasteKg := 0, orderCo2Kg := 0 }


/-! ## General lemmas about the embedded operations -/

lemma saveOrderItem_bundles (db : DB) (oi : OrderItem) :
    (saveOrderItem db oi).bundles = db.bundles := by
  unfold saveOrderItem refreshParentOrder
  dsimp only
  split
  · rfl
  · split <;> rfl

lemma updateRewardsForOrder_bundles (db : DB) (oid : ℕ) :
    (updateRewardsForOrder db oid).bundles = db.bundles := by
  unfold updateRewardsForOrder grantRewards
  dsimp only
  split <;> rfl

lemma decBundleStock_idStatus (bs : List Bundle) (bid : ℕ) (q : ℤ) :
    (decBundleStock bs bid q).map (fun b => (b.id, b.status))
      = bs.map (fun b => (b.id, b.status)) := by
  induction bs with
  | nil => rfl
  | cons b t ih =>
    simp only [decBundleStock, List.map_cons] at ih ⊢
    rw [ih]
    by_cases h : b.id = bid <;> simp [h]

lemma applyCheckoutItem_idStatus (oid : ℕ) (db : DB) (it : ReqItem) (bundle : Bundle) :
    (applyCheckoutItem oid db it bundle).bundles.map (fun b => (b.id, b.status))
      = db.bundles.map (fun b => (b.id, b.status)) := by
  unfold applyCheckoutItem
  rw [saveOrderItem_bundles]
  exact decBundleStock_idStatus _ _ _

lemma checkoutItems_bundles_idStatus (oid : ℕ) (its : List ReqItem) :
    ∀ (db : DB) (st sv : ℚ),
    (match (checkoutItems oid db st sv its).1 with
     | .ok db' _ _ => db'.bundles.map (fun b => (b.id, b.status)) = db.bundles.map (fun b => (b.id, b.status))
     | .ret db' _ => db'.bundles.map (fun b => (b.id, b.status)) = db.bundles.map (fun b => (b.id, b.status))
     | .exc => True) := by
  induction its with
  | nil => intro db st sv; simp only [checkoutItems]
  | cons it rest ih =>
    intro db st sv
    cases hfb : findBundle db it.bundleId with
    | none => simp only [checkoutItems, hfb]
    | some bundle =>
      simp only [checkoutItems, hfb]
      by_cases hs : bundle.stock < it.quantity
      · simp only [if_pos hs]
      · simp only [if_neg hs]
        by_cases hsh : shortComponents (bundleComps db bundle.id) it.quantity ≠ []
        · simp only [if_pos hsh]
        · simp only [if_neg hsh]
          have hstep := applyCheckoutItem_idStatus oid db it bundle
          have hih := ih (applyCheckoutItem oid db it bundle)
            (st + quantize2 (bundle.discountedPrice * it.quantity))
            (sv + (bundle.originalPrice - bundle.discountedPrice) * it.quantity)
          revert hih
          cases (checkoutItems oid (applyCheckoutItem oid db it bundle)
            (st + quantize2 (bundle.discountedPrice * it.quantity))
            (sv + (bundle.originalPrice - bundle.discountedPrice) * it.quantity) rest).1 with
          | ok db2 st2 sv2 => intro hih; exact hih.trans hstep
          | ret db2 resp => intro hih; exact hih.trans hstep
          | exc => intro hih; trivial


lemma addRevenue_key_preserved (k : ℕ) (v : ℚ) (kv : ℕ × ℚ) :
    (if kv.1 = k then (kv.1, kv.2 + v) else kv).1 = kv.1 := by
  split <;> rfl

lemma addRevenue_map_id (l : List (ℕ × ℚ)) (k : ℕ) (v : ℚ)
    (h : ∀ kv ∈ l, kv.1 ≠ k) :
    l.map (fun kv => if kv.1 = k then (kv.1, kv.2 + v) else kv) = l := by
  induction l with
  | nil => rfl
  | cons kv t ih =>
    simp only [List.map_cons]
    rw [if_neg (h kv (List.mem_cons_self kv t)), ih (fun x hx => h x (List.mem_cons_of_mem kv hx))]

lemma revenueOf_addRevenue (l : List (ℕ × ℚ)) (k : ℕ) (v : ℚ) (j : ℕ) :
    revenueOf (addRevenue l k v) j = revenueOf l j + (if j = k then v else 0) := by
  unfold addRevenue
  by_cases hany : (l.any fun kv => kv.1 = k) = true
  · rw [if_pos hany]
    have hpred : ((fun kv : ℕ × ℚ => decide (kv.1 = j)) ∘
        (fun kv : ℕ × ℚ => if kv.1 = k then (kv.1, kv.2 + v) else kv))
        = fun kv : ℕ × ℚ => decide (kv.1 = j) := by
      funext kv
      simp only [Function.comp]
      rw [addRevenue_key_preserved]
    have hfind : ((l.map (fun kv => if kv.1 = k then (kv.1, kv.2 + v) else kv)).find?
        (fun kv => kv.1 = j))
        = (l.find? (fun kv => kv.1 = j)).map (fun kv => if kv.1 = k then (kv.1, kv.2 + v) else kv) := by
      rw [List.find?_map, hpred]
    by_cases hj : j = k
    · subst hj
      have hex : ∃ kv ∈ l, (kv.1 = j : Bool) := by simpa using hany
      have hsome : (l.find? (fun kv => kv.1 = j)).isSome := List.find?_isSome.2 hex
      obtain ⟨kv, hkv⟩ := Option.isSome_iff_exists.1 hsome
      have hkey : kv.1 = j := by simpa using List.find?_some hkv
      simp [revenueOf, hfind, hkv, hkey]
    · cases hf : l.find? (fun kv => kv.1 = j) with
      | none => simp [revenueOf, hfind, hf, hj]
      | some kv =>
        have hkey : kv.1 = j := by simpa using List.find?_some hf
        simp [revenueOf, hfind, hf, hj, hkey]
  · rw [if_neg hany]
    have hnone : l.find? (fun kv => kv.1 = k) = none := by
      rw [List.find?_eq_none]
      intro kv hkv
      simp only [List.any_eq_true, not_exists, not_and] at hany
      simpa using hany kv hkv
    by_cases hj : j = k
    · subst hj
      simp [revenueOf, List.find?_append, hnone]
    · have hkj : k ≠ j := fun h => hj h.symm
      rw [revenueOf, List.find?_append]
      cases hf : l.find? (fun kv => kv.1 = j) with
      | none => simp [revenueOf, hf, Option.or, hkj, hj]
      | some kv => simp [revenueOf, hf, Option.or, hj]

lemma keys_addRevenue_nodup (l : List (ℕ × ℚ)) (k : ℕ) (v : ℚ)
    (hnd : (l.map (fun kv => kv.1)).Nodup) :
    ((addRevenue l k v).map (fun kv => kv.1)).Nodup := by
  unfold addRevenue
  by_cases hany : (l.any fun kv => kv.1 = k) = true
  · rw [if_pos hany, List.map_map]
    have hcomp : ((fun kv : ℕ × ℚ => kv.1) ∘ fun kv : ℕ × ℚ => if kv.1 = k then (kv.1, kv.2 + v) else kv)
        = fun kv : ℕ × ℚ => kv.1 := by
      funext kv
      simp only [Function.comp]
      rw [addRevenue_key_preserved]
    rw [hcomp]
    exact hnd
  · rw [if_neg hany, List.map_append]
    have hk : k ∉ l.map (fun kv => kv.1) := by
      simp only [List.any_eq_true, not_exists, not_and] at hany
      simp only [List.mem_map, not_exists, not_and]
      intro kv hkv
      have := hany kv hkv
      simpa using fun h => this (by simp [h])
    simp [List.nodup_append, hnd, hk]

lemma sumRev_map_add (t : List (ℕ × ℚ)) (k : ℕ) (v : ℚ)
    (hnd : (t.map (fun kv => kv.1)).Nodup) (hmem : k ∈ t.map (fun kv => kv.1)) :
    ((t.map (fun kv => if kv.1 = k then (kv.1, kv.2 + v) else kv)).map (fun kv => kv.2)).sum
      = (t.map (fun kv => kv.2)).sum + v := by
  induction t with
  | nil => simp at hmem
  | cons kv t ih =>
    simp only [List.map_cons, List.nodup_cons] at hnd
    by_cases hkv : kv.1 = k
    · have hni : ∀ x ∈ t, x.1 ≠ k := by
        intro x hx hxk
        exact hnd.1 (List.mem_map.2 ⟨x, hx, by rw [hxk, hkv]⟩)
      simp only [List.map_cons, if_pos hkv, addRevenue_map_id t k v hni, List.sum_cons]
      ring
    · have hmem2 : k ∈ t.map (fun kv => kv.1) := by
        rcases List.mem_cons.1 hmem with h | h
        · exact absurd h.symm hkv
        · exact h
      simp only [List.map_cons, if_neg hkv, List.sum_cons, ih hnd.2 hmem2]
      ring

lemma sumRev_addRevenue (l : List (ℕ × ℚ)) (k : ℕ) (v : ℚ)
    (hnd : (l.map (fun kv => kv.1)).Nodup) :
    ((addRevenue l k v).map (fun kv => kv.2)).sum = (l.map (fun kv => kv.2)).sum + v := by
  unfold addRevenue
  by_cases hany : (l.any fun kv => kv.1 = k) = true
  · rw [if_pos hany]
    have hmem : k ∈ l.map (fun kv => kv.1) := by
      simp only [List.any_eq_true] at hany
      obtain ⟨kv, hkv, he⟩ := hany
      exact List.mem_map.2 ⟨kv, hkv, by simpa using he⟩
    exact sumRev_map_add l k v hnd hmem
  · rw [if_neg hany]
    simp

lemma accumulateShares_cons (acc : List (ℕ × ℚ)) (p : ProductSnap)
    (ps : List ProductSnap) (share : ℚ) :
    accumulateShares acc (p :: ps) share
      = accumulateShares
          (match p.companyId with
           | some cid => if cid ≠ 0 then addRevenue acc cid share else acc
           | none => acc)
          ps share := rfl

lemma accumulateShares_nodup (ps : List ProductSnap) :
    ∀ (acc : List (ℕ × ℚ)) (share : ℚ),
    ((acc.map (fun kv => kv.1)).Nodup) →
    (((accumulateShares acc ps share).map (fun kv => kv.1)).Nodup) := by
  induction ps with
  | nil => intro acc share h; exact h
  | cons p t ih =>
    intro acc share h
    rw [accumulateShares_cons]
    cases hc : p.companyId with
    | none => exact ih acc share h
    | some cid =>
      dsimp only
      by_cases h0 : cid ≠ 0
      · rw [if_pos h0]
        exact ih _ share (keys_addRevenue_nodup acc cid share h)
      · rw [if_neg h0]
        exact ih acc share h

lemma accumulateShares_sum (ps : List ProductSnap) :
    ∀ (acc : List (ℕ × ℚ)) (share : ℚ),
    ((acc.map (fun kv => kv.1)).Nodup) →
    ((accumulateShares acc ps share).map (fun kv => kv.2)).sum
      = (acc.map (fun kv => kv.2)).sum + (ps.countP hasCompany : ℚ) * share := by
  induction ps with
  | nil => intro acc share h; simp [accumulateShares]
  | cons p t ih =>
    intro acc share h
    rw [accumulateShares_cons]
    cases hc : p.companyId with
    | none =>
      have hcp : hasCompany p = false := by simp [hasCompany, hc]
      have hcount : List.countP hasCompany (p :: t) = List.countP hasCompany t := by
        simp [List.countP_cons, hcp]
      rw [hcount, ih acc share h]
    | some cid =>
      dsimp only
      by_cases h0 : cid ≠ 0
      · have hcp : hasCompany p = true := by simp [hasCompany, hc, h0]
        have hcount : List.countP hasCompany (p :: t) = List.countP hasCompany t + 1 := by
          simp [List.countP_cons, hcp]
        rw [if_pos h0, hcount, ih _ share (keys_addRevenue_nodup acc cid share h),
          sumRev_addRevenue acc cid share h]
        push_cast
        ring
      · have hcp : hasCompany p = false := by simp [hasCompany, hc, h0]
        have hcount : List.countP hasCompany (p :: t) = List.countP hasCompany t := by
          simp [List.countP_cons, hcp]
        rw [if_neg h0, hcount, ih acc share h]

lemma accumulateShares_revenueOf (ps : List ProductSnap) :
    ∀ (acc : List (ℕ × ℚ)) (share : ℚ) (j : ℕ), j ≠ 0 →
    revenueOf (accumulateShares acc ps share) j
      = revenueOf acc j + (ps.countP (fun p => p.companyId == some j) : ℚ) * share := by
  induction ps with
  | nil => intro acc share j hj; simp [accumulateShares]
  | cons p t ih =>
    intro acc share j hj
    rw [accumulateShares_cons]
    cases hc : p.companyId with
    | none =>
      have hcount : List.countP (fun p => p.companyId == some j) (p :: t)
          = List.countP (fun p => p.companyId == some j) t := by
        simp [List.countP_cons, hc]
      rw [hcount]
      exact ih acc share j hj
    | some cid =>
      dsimp only
      by_cases h0 : cid ≠ 0
      · by_cases hjc : j = cid
        · have hcount : List.countP (fun p => p.companyId == some j) (p :: t)
              = List.countP (fun p => p.companyId == some j) t + 1 := by
            simp [List.countP_cons, hc, hjc]
          rw [if_pos h0, hcount, ih _ share j hj, revenueOf_addRevenue acc cid share j,
            if_pos hjc]
          push_cast
          ring
        · have hcount : List.countP (fun p => p.companyId == some j) (p :: t)
              = List.countP (fun p => p.companyId == some j) t := by
            simp only [List.countP_cons, hc, beq_iff_eq, Option.some.injEq]
            rw [if_neg (fun h : cid = j => hjc h.symm), Nat.add_zero]
          rw [if_pos h0, hcount, ih _ share j hj, revenueOf_addRevenue acc cid share j,
            if_neg hjc]
          ring
      · have h0e : cid = 0 := by omega
        have hcount : List.countP (fun p => p.companyId == some j) (p :: t)
            = List.countP (fun p => p.companyId == some j) t := by
          simp only [List.countP_cons, hc, h0e, beq_iff_eq, Option.some.injEq]
          rw [if_neg (fun h : (0 : ℕ) = j => hj h.symm), Nat.add_zero]
        rw [if_neg h0, hcount]
        exact ih acc share j hj

lemma accumulateShares_revenueOf_zero (ps : List ProductSnap) :
    ∀ (acc : List (ℕ × ℚ)) (share : ℚ),
    revenueOf (accumulateShares acc ps share) 0 = revenueOf acc 0 := by
  induction ps with
  | nil => intro acc share; rfl
  | cons p t ih =>
    intro acc share
    rw [accumulateShares_cons]
    cases hc : p.companyId with
    | none => exact ih acc share
    | some cid =>
      dsimp only
      by_cases h0 : cid ≠ 0
      · rw [if_pos h0, ih _ share, revenueOf_addRevenue acc cid share 0,
          if_neg (fun h : (0 : ℕ) = cid => h0 h.symm)]
        ring
      · rw [if_neg h0]
        exact ih acc share


lemma le_foldl_max (l : List OrderItem) : ∀ (b : ℕ), b ≤ l.foldl (fun m oi => max m oi.id) b := by
  induction l with
  | nil => intro b; exact Nat.le_refl b
  | cons x t ih =>
    intro b
    exact le_trans (Nat.le_max_left b x.id) (ih (max b x.id))

lemma mem_le_foldl_max (l : List OrderItem) : ∀ (b : ℕ) (x : OrderItem), x ∈ l →
    x.id ≤ l.foldl (fun m oi => max m oi.id) b := by
  induction l with
  | nil => intro b x hx; cases hx
  | cons y t ih =>
    intro b x hx
    rcases List.mem_cons.1 hx with h | h
    · subst h
      exact le_trans (Nat.le_max_right b x.id) (le_foldl_max t (max b x.id))
    · exact ih (max b y.id) x h

lemma freshItemId_unused (l : List OrderItem) :
    (l.any fun x => x.id = l.foldl (fun m oi => max m oi.id) 0 + 1) = false := by
  rw [List.any_eq_false]
  intro x hx
  have := mem_le_foldl_max l 0 x hx
  simp only [decide_eq_true_eq]
  omega

lemma saveOrderItem_orderItems_append (db : DB) (oi : OrderItem)
    (h : (db.orderItems.any fun x => x.id = oi.id) = false) :
    (saveOrderItem db oi).orderItems
      = db.orderItems ++ [{ oi with savings := calculateSavings oi.snapshot oi.quantity }] := by
  unfold saveOrderItem refreshParentOrder
  dsimp only
  simp only [h, Bool.false_eq_true, if_false]
  split
  · rfl
  · split <;> rfl

lemma applyCheckoutItem_items_proj (oid : ℕ) (db : DB) (it : ReqItem) (bundle : Bundle) :
    (applyCheckoutItem oid db it bundle).orderItems.map (fun oi => (oi.wasteKg, oi.co2Kg))
      = db.orderItems.map (fun oi => (oi.wasteKg, oi.co2Kg)) ++ [(it.wasteKg, it.co2Kg)] := by
  unfold applyCheckoutItem
  rw [saveOrderItem_orderItems_append _ _ (freshItemId_unused _)]
  simp

lemma checkoutItems_ok_proj (oid : ℕ) (its : List ReqItem) :
    ∀ (db : DB) (st sv : ℚ) (db2 : DB) (st2 sv2 : ℚ),
    (checkoutItems oid db st sv its).1 = .ok db2 st2 sv2 →
    db2.orderItems.map (fun oi => (oi.wasteKg, oi.co2Kg))
      = db.orderItems.map (fun oi => (oi.wasteKg, oi.co2Kg))
          ++ its.map (fun it => (it.wasteKg, it.co2Kg)) := by
  induction its with
  | nil =>
    intro db st sv db2 st2 sv2 h
    simp only [checkoutItems] at h
    cases h
    simp
  | cons it rest ih =>
    intro db st sv db2 st2 sv2 h
    cases hfb : findBundle db it.bundleId with
    | none =>
      simp only [checkoutItems, hfb] at h
      cases h
    | some bundle =>
      simp only [checkoutItems, hfb] at h
      by_cases hs : bundle.stock < it.quantity
      · rw [if_pos hs] at h
        cases h
      · rw [if_neg hs] at h
        by_cases hsh : shortComponents (bundleComps db bundle.id) it.quantity ≠ []
        · rw [if_pos hsh] at h
          cases h
        · rw [if_neg hsh] at h
          have := ih (applyCheckoutItem oid db it bundle)
            (st + quantize2 (bundle.discountedPrice * it.quantity))
            (sv + (bundle.originalPrice - bundle.discountedPrice) * it.quantity)
            db2 st2 sv2 h
          rw [this, applyCheckoutItem_items_proj]
          simp

lemma checkoutItems_ret_not_created (oid : ℕ) (its : List ReqItem) :
    ∀ (db : DB) (st sv : ℚ) (db2 : DB) (resp : Response),
    (checkoutItems oid db st sv its).1 = .ret db2 resp → ∀ i, resp ≠ .created i := by
  induction its with
  | nil =>
    intro db st sv db2 resp h
    simp only [checkoutItems] at h
    cases h
  | cons it rest ih =>
    intro db st sv db2 resp h
    cases hfb : findBundle db it.bundleId with
    | none =>
      simp only [checkoutItems, hfb] at h
      cases h
    | some bundle =>
      simp only [checkoutItems, hfb] at h
      by_cases hs : bundle.stock < it.quantity
      · rw [if_pos hs] at h
        cases h
        intro i hcontra
        cases hcontra
      · rw [if_neg hs] at h
        by_cases hsh : shortComponents (bundleComps db bundle.id) it.quantity ≠ []
        · rw [if_pos hsh] at h
          cases h
          intro i hcontra
          cases hcontra
        · rw [if_neg hsh] at h
          exact ih _ _ _ db2 resp h

lemma updateRewardsForOrder_orderItems (db : DB) (oid : ℕ) :
    (updateRewardsForOrder db oid).orderItems = db.orderItems := by
  unfold updateRewardsForOrder grantRewards
  dsimp only
  split <;> rfl

lemma foldl_pair_sum {α : Type} (l : List α) (f g : α → ℚ) :
    ∀ (a b : ℚ), l.foldl (fun wc x => (wc.1 + f x, wc.2 + g x)) (a, b)
      = (a + (l.map f).sum, b + (l.map g).sum) := by
  induction l with
  | nil => intro a b; simp
  | cons x t ih =>
    intro a b
    simp only [List.foldl_cons, List.map_cons, List.sum_cons]
    rw [ih (a + f x) (b + g x), Prod.mk.injEq]
    constructor <;> ring


lemma insertSnapCompanies_cons (s : Finset ℕ) (p : ProductSnap) (ps : List ProductSnap) :
    insertSnapCompanies s (p :: ps)
      = insertSnapCompanies
          (match p.companyId with
           | some cid => if cid ≠ 0 then insert cid s else s
           | none => s)
          ps := rfl

lemma mem_insertSnapCompanies (ps : List ProductSnap) :
    ∀ (s : Finset ℕ) (cid : ℕ),
    cid ∈ insertSnapCompanies s ps
      ↔ cid ∈ s ∨ ∃ p ∈ ps, p.companyId = some cid ∧ cid ≠ 0 := by
  induction ps with
  | nil =>
    intro s cid
    simp [insertSnapCompanies]
  | cons p t ih =>
    intro s cid
    rw [insertSnapCompanies_cons]
    cases hc : p.companyId with
    | none =>
      rw [ih]
      simp [hc]
    | some c =>
      dsimp only
      by_cases h0 : c ≠ 0
      · rw [if_pos h0, ih]
        simp only [Finset.mem_insert, List.mem_cons, hc]
        constructor
        · rintro ((rfl | hs) | ⟨q, hq, hqc⟩)
          · exact Or.inr ⟨p, Or.inl rfl, by simp [hc], h0⟩
          · exact Or.inl hs
          · exact Or.inr ⟨q, Or.inr hq, hqc⟩
        · rintro (hs | ⟨q, (rfl | hq), hqc, hne⟩)
          · exact Or.inl (Or.inr hs)
          · rw [hc] at hqc
            exact Or.inl (Or.inl (by injection hqc with h; exact h.symm))
          · exact Or.inr ⟨q, hq, hqc, hne⟩
      · rw [if_neg h0, ih]
        have hc0 : c = 0 := by omega
        simp only [List.mem_cons, hc, hc0]
        constructor
        · rintro (hs | ⟨q, hq, hqc⟩)
          · exact Or.inl hs
          · exact Or.inr ⟨q, Or.inr hq, hqc⟩
        · rintro (hs | ⟨q, (rfl | hq), hqc, hne⟩)
          · exact Or.inl hs
          · rw [hc] at hqc
            injection hqc with h
            omega
          · exact Or.inr ⟨q, hq, hqc, hne⟩

lemma mem_collectProducerIds (db : DB) (oid : ℕ) (cid : ℕ) :
    cid ∈ collectProducerIdsFromOrder db oid
      ↔ cid ≠ 0 ∧ ∃ oi ∈ activeItemsOf db oid,
          ∃ p ∈ (oi.snapshot.elim [] fun sn => sn.products), p.companyId = some cid := by
  unfold collectProducerIdsFromOrder
  have main : ∀ (items : List OrderItem) (s : Finset ℕ),
      cid ∈ items.foldl (fun s2 oi => insertSnapCompanies s2 (oi.snapshot.elim [] fun sn => sn.products)) s
        ↔ cid ∈ s ∨ (cid ≠ 0 ∧ ∃ oi ∈ items,
            ∃ p ∈ (oi.snapshot.elim [] fun sn => sn.products), p.companyId = some cid) := by
    intro items
    induction items with
    | nil => intro s; simp
    | cons oi t ih =>
      intro s
      rw [List.foldl_cons, ih, mem_insertSnapCompanies]
      constructor
      · rintro ((hs | ⟨p, hp, hpc, hne⟩) | ⟨hne, q, hq, hmem⟩)
        · exact Or.inl hs
        · exact Or.inr ⟨hne, oi, List.mem_cons_self oi t, p, hp, hpc⟩
        · exact Or.inr ⟨hne, q, List.mem_cons_of_mem oi hq, hmem⟩
      · rintro (hs | ⟨hne, q, hq, p, hp, hpc⟩)
        · exact Or.inl (Or.inl hs)
        · rcases List.mem_cons.1 hq with rfl | hq2
          · exact Or.inl (Or.inr ⟨p, hp, hpc, hne⟩)
          · exact Or.inr ⟨hne, q, hq2, p, hp, hpc⟩
  rw [main]
  simp

lemma grantRewards_progresses (db : DB) (uid : ℕ) (prog : RewardProgress) :
    (grantRewards db uid prog).progresses = db.progresses := rfl

lemma find?_upsertProgress (ps : List RewardProgress) (prog : RewardProgress) :
    (upsertProgress ps prog).find? (fun x => x.userId = prog.userId) = some prog := by
  induction ps with
  | nil =>
    simp [upsertProgress, List.find?]
  | cons x t ih =>
    unfold upsertProgress
    by_cases hx : x.userId = prog.userId
    · rw [if_pos (by simp [List.any_cons, hx])]
      simp only [List.map_cons, if_pos hx, List.find?]
      simp
    · by_cases hat : (t.any fun y => y.userId = prog.userId) = true
      · rw [if_pos (by simp [List.any_cons, hat])]
        simp only [List.map_cons, if_neg hx]
        rw [List.find?_cons_of_neg _ (by simpa using hx)]
        have ih2 := ih
        unfold upsertProgress at ih2
        rw [if_pos hat] at ih2
        exact ih2
      · rw [if_neg (by simp only [List.any_cons]; simp [hx, hat])]
        rw [List.cons_append, List.find?_cons_of_neg _ (by simpa using hx)]
        have ih2 := ih
        unfold upsertProgress at ih2
        rw [if_neg hat] at ih2
        exact ih2

lemma find?_upsertProgress_of_uid (ps : List RewardProgress) (prog : RewardProgress)
    (uid : ℕ) (h : prog.userId = uid) :
    (upsertProgress ps prog).find? (fun x => x.userId = uid) = some prog := by
  subst h
  exact find?_upsertProgress ps prog


lemma filterMap_map_sublist {α β γ : Type} (l : List α) (f : α → Option β)
    (g : β → γ) (h : α → γ) (hfg : ∀ a b, f a = some b → g b = h a) :
    ((l.filterMap f).map g).Sublist (l.map h) := by
  induction l with
  | nil => simp
  | cons a t ih =>
    cases hfa : f a with
    | none =>
      rw [List.filterMap_cons_none hfa, List.map_cons]
      exact ih.cons (h a)
    | some b =>
      rw [List.filterMap_cons_some hfa, List.map_cons, List.map_cons, hfg a b hfa]
      exact ih.cons₂ (h a)

lemma grantRewards_rewards_spec (db : DB) (uid : ℕ) (prog : RewardProgress) :
    ∃ ns, (grantRewards db uid prog).rewards = db.rewards ++ ns ∧
      (∀ r ∈ ns, r.tierId = none ∧ r.userId = uid ∧
          r.title ∉ (db.rewards.filter (fun x => x.userId = uid)).map (fun x => x.title)) ∧
      (ns.map (fun r => r.title)).Sublist
        ((db.tiers.filter (fun t => t.isActive)).map (fun t => t.title)) := by
  refine ⟨_, rfl, ?_, ?_⟩
  · intro r hr
    obtain ⟨t, ht, heq⟩ := List.mem_filterMap.1 hr
    by_cases hown : ((db.rewards.filter (fun x => x.userId = uid)).map (fun x => x.title)).contains t.title
    · rw [if_pos hown] at heq
      cases heq
    · rw [if_neg hown] at heq
      split at heq
      · cases heq
        refine ⟨rfl, rfl, ?_⟩
        simpa using hown
      · cases heq
  · refine filterMap_map_sublist _ _ _ _ ?_
    intro t r heq
    by_cases hown : ((db.rewards.filter (fun x => x.userId = uid)).map (fun x => x.title)).contains t.title
    · rw [if_pos hown] at heq
      cases heq
    · rw [if_neg hown] at heq
      split at heq
      · cases heq
        rfl
      · cases heq

lemma updateRewardsForOrder_tiers (db : DB) (oid : ℕ) :
    (updateRewardsForOrder db oid).tiers = db.tiers := by
  unfold updateRewardsForOrder grantRewards
  dsimp only
  split <;> rfl

lemma updateRewards_rewards_spec (db : DB) (oid : ℕ) :
    ∃ uid ns, (updateRewardsForOrder db oid).rewards = db.rewards ++ ns ∧
      (∀ r ∈ ns, r.tierId = none ∧ r.userId = uid ∧
          r.title ∉ (db.rewards.filter (fun x => x.userId = uid)).map (fun x => x.title)) ∧
      (ns.map (fun r => r.title)).Sublist
        ((db.tiers.filter (fun t => t.isActive)).map (fun t => t.title)) := by
  unfold updateRewardsForOrder
  cases hfo : findOrder db oid with
  | none =>
    refine ⟨0, [], by simp, by simp, by simp⟩
  | some o =>
    dsimp only
    exact ⟨o.userId, grantRewards_rewards_spec _ o.userId _⟩

lemma updateRewards_titles_nodup_step (db : DB) (oid : ℕ)
    (htiers : ((db.tiers.filter fun t => t.isActive).map fun t => t.title).Nodup)
    (husers : ∀ uid, ((db.rewards.filter fun r => r.userId = uid).map fun r => r.title).Nodup) :
    ∀ uid, (((updateRewardsForOrder db oid).rewards.filter fun r => r.userId = uid).map
        fun r => r.title).Nodup := by
  obtain ⟨u1, ns, heq, hprops, hsub⟩ := updateRewards_rewards_spec db oid
  intro uid
  rw [heq, List.filter_append, List.map_append]
  by_cases huid : uid = u1
  · subst huid
    have hns : ns.filter (fun r => r.userId = uid) = ns := by
      rw [List.filter_eq_self]
      intro r hr
      simpa using (hprops r hr).2.1
    rw [hns, List.nodup_append]
    refine ⟨husers uid, htiers.sublist hsub, ?_⟩
    intro a ha hb
    obtain ⟨r, hr, rfl⟩ := List.mem_map.1 hb
    exact (hprops r hr).2.2 ha
  · have hns : ns.filter (fun r => r.userId = uid) = [] := by
      rw [List.filter_eq_nil_iff]
      intro r hr
      have := (hprops r hr).2.1
      simp [this]
      exact fun h => huid h.symm
    rw [hns]
    simpa using husers uid


lemma find?_replaceOrder (orders : List Order) (o2 : Order) (uid : ℕ) (hid : o2.id = uid)
    (h : (orders.find? (fun x => x.id = uid)).isSome) :
    (replaceOrder orders o2).find? (fun x => x.id = uid) = some o2 := by
  induction orders with
  | nil => simp [List.find?] at h
  | cons x t ih =>
    unfold replaceOrder
    by_cases hx : x.id = uid
    · rw [List.map_cons, if_pos (by rw [hx, hid]), List.find?_cons_of_pos _ (by simpa using hid)]
    · rw [List.map_cons, if_neg (by rw [hid]; exact hx), List.find?_cons_of_neg _ (by simpa using hx)]
      rw [List.find?_cons_of_neg _ (by simpa using hx)] at h
      exact ih h

lemma refreshParentOrder_orderItems (db : DB) (oid : ℕ) :
    (refreshParentOrder db oid).orderItems = db.orderItems := by
  unfold refreshParentOrder
  split
  · rfl
  · split <;> rfl

lemma activeItemsOf_refreshParentOrder (db : DB) (oid oid2 : ℕ) :
    activeItemsOf (refreshParentOrder db oid) oid2 = activeItemsOf db oid2 := by
  unfold activeItemsOf
  rw [refreshParentOrder_orderItems]

lemma refreshParentOrder_spec (db : DB) (oid : ℕ) (o : Order)
    (h0 : oid ≠ 0) (hfo : findOrder db oid = some o) :
    ∃ o', findOrder (refreshParentOrder db oid) oid = some o' ∧
      o'.wasteKg = ((activeItemsOf (refreshParentOrder db oid) oid).map fun x => x.wasteKg).sum ∧
      o'.co2Kg = ((activeItemsOf (refreshParentOrder db oid) oid).map fun x => x.co2Kg).sum ∧
      o'.savings = ((activeItemsOf (refreshParentOrder db oid) oid).map fun x => x.savings).sum ∧
      o'.subtotal = o.subtotal ∧ o'.totalPrice = o.totalPrice := by
  have hoid : o.id = oid := by
    have := List.find?_some hfo
    simpa using this
  rw [activeItemsOf_refreshParentOrder]
  unfold refreshParentOrder
  rw [if_neg h0, hfo]
  refine ⟨updateTotals db o, ?_, ?_, ?_, ?_, rfl, rfl⟩
  · have hsome : (db.orders.find? (fun x => x.id = oid)).isSome := by
      rw [show db.orders.find? (fun x => x.id = oid) = findOrder db oid from rfl, hfo]
      rfl
    exact find?_replaceOrder db.orders (updateTotals db o) oid (by simpa using hoid) hsome
  · show (updateTotals db o).wasteKg = _
    unfold updateTotals
    rw [hoid]
  · show (updateTotals db o).co2Kg = _
    unfold updateTotals
    rw [hoid]
  · show (updateTotals db o).savings = _
    unfold updateTotals
    rw [hoid]

lemma saveOrderItem_stored_savings (db : DB) (oi : OrderItem) :
    ((saveOrderItem db oi).orderItems.find? (fun x => x.id = oi.id)).map (fun x => x.savings)
      = some (calculateSavings oi.snapshot oi.quantity) := by
  unfold saveOrderItem
  dsimp only
  rw [refreshParentOrder_orderItems]
  by_cases hany : (db.orderItems.any fun x => x.id = oi.id) = true
  · rw [if_pos hany]
    have hpred : ((fun x : OrderItem => decide (x.id = oi.id)) ∘
        (fun x : OrderItem => if x.id = oi.id
          then { oi with savings := calculateSavings oi.snapshot oi.quantity } else x))
        = fun x : OrderItem => decide (x.id = oi.id) := by
      funext x
      simp only [Function.comp]
      by_cases hx : x.id = oi.id <;> simp [hx]
    rw [List.find?_map, hpred]
    have hsome : (db.orderItems.find? (fun x => x.id = oi.id)).isSome := by
      rw [List.find?_isSome]
      simpa using hany
    obtain ⟨x, hx⟩ := Option.isSome_iff_exists.1 hsome
    have hxid : x.id = oi.id := by simpa using List.find?_some hx
    rw [hx]
    simp [if_pos hxid]
  · rw [if_neg hany]
    have hnone : db.orderItems.find? (fun x => x.id = oi.id) = none := by
      rw [List.find?_eq_none]
      intro x hx hdec
      exact hany (List.any_eq_true.2 ⟨x, hx, hdec⟩)
    rw [List.find?_append, hnone]
    simp

lemma saveOrderItem_parent_spec (db : DB) (oi : OrderItem) (o : Order)
    (h0 : oi.orderId ≠ 0) (hfo : findOrder db oi.orderId = some o) :
    ∃ o', findOrder (saveOrderItem db oi) oi.orderId = some o' ∧
      o'.wasteKg = ((activeItemsOf (saveOrderItem db oi) oi.orderId).map fun x => x.wasteKg).sum ∧
      o'.co2Kg = ((activeItemsOf (saveOrderItem db oi) oi.orderId).map fun x => x.co2Kg).sum ∧
      o'.savings = ((activeItemsOf (saveOrderItem db oi) oi.orderId).map fun x => x.savings).sum ∧
      o'.subtotal = o.subtotal ∧ o'.totalPrice = o.totalPrice := by
  unfold saveOrderItem
  dsimp only
  exact refreshParentOrder_spec _ oi.orderId o h0 hfo

lemma softDeactivateItem_orderItems (db : DB) (itemId : ℕ) :
    (softDeactivateItem db itemId).orderItems
      = match db.orderItems.find? (fun x => x.id = itemId) with
        | none => db.orderItems
        | some _ => db.orderItems.map
            (fun x => if x.id = itemId then { x with isActive := false } else x) := by
  unfold softDeactivateItem
  cases h : db.orderItems.find? (fun x => x.id = itemId) with
  | none => rfl
  | some oi =>
    dsimp only
    rw [refreshParentOrder_orderItems]

lemma softDeactivate_inactive (db : DB) (itemId : ℕ) :
    ∀ x ∈ (softDeactivateItem db itemId).orderItems, x.id = itemId → x.isActive = false := by
  intro x hx hxid
  rw [softDeactivateItem_orderItems] at hx
  cases h : db.orderItems.find? (fun x => x.id = itemId) with
  | none =>
    rw [h] at hx
    rw [List.find?_eq_none] at h
    exact absurd (by simpa using hxid) (h x hx)
  | some oi2 =>
    rw [h] at hx
    obtain ⟨y, hy, hyx⟩ := List.mem_map.1 hx
    by_cases hyid : y.id = itemId
    · rw [if_pos hyid] at hyx
      rw [← hyx]
    · rw [if_neg hyid] at hyx
      rw [← hyx] at hxid
      exact absurd hxid hyid

lemma softDeactivate_active_ne (db : DB) (itemId : ℕ) :
    ∀ oid2, ∀ x ∈ activeItemsOf (softDeactivateItem db itemId) oid2, x.id ≠ itemId := by
  intro oid2 x hx hxid
  have hmem : x ∈ (softDeactivateItem db itemId).orderItems := List.mem_of_mem_filter hx
  have hact : x.isActive = true := by
    have h2 := (List.mem_filter.1 hx).2
    simp only [Bool.and_eq_true, decide_eq_true_eq] at h2
    exact h2.2
  have := softDeactivate_inactive db itemId x hmem hxid
  rw [this] at hact
  cases hact

lemma softDeactivate_parent_spec (db : DB) (itemId : ℕ) (oi0 : OrderItem) (o : Order)
    (hfind : db.orderItems.find? (fun x => x.id = itemId) = some oi0)
    (h0 : oi0.orderId ≠ 0) (hfo : findOrder db oi0.orderId = some o) :
    ∃ o', findOrder (softDeactivateItem db itemId) oi0.orderId = some o' ∧
      o'.wasteKg = ((activeItemsOf (softDeactivateItem db itemId) oi0.orderId).map
          fun x => x.wasteKg).sum ∧
      o'.co2Kg = ((activeItemsOf (softDeactivateItem db itemId) oi0.orderId).map
          fun x => x.co2Kg).sum ∧
      o'.savings = ((activeItemsOf (softDeactivateItem db itemId) oi0.orderId).map
          fun x => x.savings).sum ∧
      o'.subtotal = o.subtotal ∧ o'.totalPrice = o.totalPrice := by
  unfold softDeactivateItem
  rw [hfind]
  dsimp only
  exact refreshParentOrder_spec _ oi0.orderId o h0 hfo


lemma findBundle_id (db : DB) (bid : ℕ) (b : Bundle) (h : findBundle db bid = some b) :
    b.id = bid := by
  have := List.find?_some h
  exact of_decide_eq_true this

lemma checkoutItems_trace (oid : ℕ) (its : List ReqItem) :
    ∀ (db : DB) (st sv : ℚ),
    ((checkoutItems oid db st sv its).2.all
      (fun r => match r with | .bundleRow _ => true | .productRow _ => false)) = true ∧
    ∃ k, (checkoutItems oid db st sv its).2.map LockedRow.rowId
          = (its.map (fun it => it.bundleId)).take k := by
  induction its with
  | nil =>
    intro db st sv
    exact ⟨rfl, 0, rfl⟩
  | cons it rest ih =>
    intro db st sv
    cases hfb : findBundle db it.bundleId with
    | none =>
      simp only [checkoutItems, hfb]
      exact ⟨rfl, 0, rfl⟩
    | some bundle =>
      have hid : bundle.id = it.bundleId := findBundle_id db it.bundleId bundle hfb
      simp only [checkoutItems, hfb]
      by_cases hs : bundle.stock < it.quantity
      · simp only [if_pos hs]
        refine ⟨rfl, 1, ?_⟩
        simp [hid, LockedRow.rowId]
      · simp only [if_neg hs]
        by_cases hsh : shortComponents (bundleComps db bundle.id) it.quantity ≠ []
        · simp only [if_pos hsh]
          refine ⟨rfl, 1, ?_⟩
          simp [hid, LockedRow.rowId]
        · simp only [if_neg hsh]
          obtain ⟨hall, k, hk⟩ := ih (applyCheckoutItem oid db it bundle)
            (st + quantize2 (bundle.discountedPrice * it.quantity))
            (sv + (bundle.originalPrice - bundle.discountedPrice) * it.quantity)
          refine ⟨?_, k + 1, ?_⟩
          · simp [List.all_cons, hall]
          · simp only [List.map_cons, List.take_succ_cons, hk, LockedRow.rowId]
            rw [hid]



/-! ## The claims -/

/-- Claim C1 (code bug): the spec demands that a checkout whose availability
validation fails creates no Order row and changes no stock, but the 409
conflict paths of `OrderViewSet.create` execute `return` inside
`with transaction.atomic()`, which commits. Evaluating the checkout at a
request whose second bundle is out of stock: the response is the bundle
conflict, yet the committed store holds the new (empty-totals) order row,
the first bundle's stock is decremented from 5 to 4 and its component
product from 100 to 98. -/
theorem c1_checkout_conflict_commits_partial_state :
    (checkout dbC1 reqC1).2 = .conflictBundle "Panier B" ∧
    (checkout dbC1 reqC1).1.orders.length = 1 ∧
    ((checkout dbC1 reqC1).1.bundles.map fun b => (b.id, b.stock)) = [(1, 4), (2, 0)] ∧
    ((checkout dbC1 reqC1).1.products.map fun p => (p.id, p.stock)) = [(1, 98), (2, 50)] ∧
    dbC1.orders = [] :=
  ⟨rfl, rfl, rfl, rfl, rfl⟩

/-- Claim C2, counterexample: on a line of 90 over two components with
per-bundle quantities 2 and 1, `ProducerShareInOrdersView` attributes 45 to
each company, not the quantity-weighted 60/30 the claim states. -/
theorem c2_producer_share_counterexample :
    byProducerRevenue [item90] = [(1, 45), (2, 45)] ∧
    item90.totalPrice = 90 ∧
    ((item90.snapshot.elim [] fun s => s.products).map
        fun p => (p.companyId, p.perBundleQuantity)) = [(some 1, 2), (some 2, 1)] ∧
    revenueOf (byProducerRevenue [item90]) 1 ≠ 60 := by
  have h : byProducerRevenue [item90] = [(1, 45), (2, 45)] := by
    simp [byProducerRevenue, item90, snap90, addRevenue, accumulateShares, List.foldl]
    norm_num
  refine ⟨h, rfl, rfl, ?_⟩
  rw [h]
  simp [revenueOf, List.find?]


/-- Claim C2, amended: `ProducerShareInOrdersView` gives every snapshot
product entry carrying a truthy company id an EQUAL share of the line,
`item.total_price / number_of_entries`; a company's revenue is its entry
count times that share, and when every entry carries a company the
attributed shares sum exactly to the line total. -/
theorem c2_producer_share_equal_split : ∀ (it : OrderItem) (s : BundleSnapshot),
    it.snapshot = some s → s.products ≠ [] →
    (∀ p ∈ s.products, hasCompany p = true) →
    (((byProducerRevenue [it]).map fun kv => kv.2).sum = it.totalPrice) ∧
    (∀ cid, revenueOf (byProducerRevenue [it]) cid
       = ((s.products.countP fun p => p.companyId == some cid) : ℚ)
           * (it.totalPrice / (s.products.length : ℚ))) := by
  intro it s hsnap hne hall
  have hby : byProducerRevenue [it]
      = accumulateShares [] s.products (it.totalPrice / (s.products.length : ℚ)) := by
    simp [byProducerRevenue, hsnap, hne]
  have hlen : ((s.products.length : ℚ)) ≠ 0 := by
    have : s.products.length ≠ 0 := fun h => hne (List.length_eq_zero.1 h)
    exact_mod_cast this
  constructor
  · rw [hby, accumulateShares_sum s.products [] _ (by simp)]
    rw [List.countP_eq_length.2 (fun p hp => hall p hp)]
    simp only [List.map_nil, List.sum_nil, zero_add]
    rw [mul_comm, div_mul_cancel₀ _ hlen]
  · intro cid
    by_cases hcid : cid = 0
    · subst hcid
      rw [hby, accumulateShares_revenueOf_zero]
      have hcount : (s.products.countP fun p => p.companyId == some 0) = 0 := by
        rw [List.countP_eq_zero]
        intro p hp
        have := hall p hp
        unfold hasCompany at this
        cases hc : p.companyId with
        | none => simp [hc]
        | some c =>
          rw [hc] at this
          simp only [decide_eq_true_eq] at this
          simp [hc, this]
      rw [hcount]
      simp [revenueOf]
    · rw [hby, accumulateShares_revenueOf s.products [] _ cid hcid]
      simp [revenueOf]

theorem c2_producer_share_equal_split_witness :
    ((byProducerRevenue [item90]).map fun kv => kv.2).sum = item90.totalPrice ∧
    revenueOf (byProducerRevenue [item90]) 1
      = ((snap90.products.countP fun p => p.companyId == some 1) : ℚ)
          * (item90.totalPrice / (snap90.products.length : ℚ)) :=
  ⟨(c2_producer_share_equal_split item90 snap90 rfl (by simp [snap90]) (by simp [snap90, hasCompany])).1,
   (c2_producer_share_equal_split item90 snap90 rfl (by simp [snap90]) (by simp [snap90, hasCompany])).2 1⟩


/-- Claim C3, counterexample: checkout stores the request payload's impact
figures (defaulting to 0) on the created line; with an impact row of 5 kg
waste / 2 kg CO2 per base quantity 1 for the component, the claim's formula
`quantity_per_bundle x bundle_quantity / base x factor` gives (10, 4) for a
2-bundle purchase, while the stored line carries (0, 0). -/
theorem c3_line_impact_counterexample :
    ((checkout dbC3 reqC3).1.orderItems.map fun oi => (oi.wasteKg, oi.co2Kg)) = [(0, 0)] ∧
    (checkout dbC3 reqC3).2 = .created 1 ∧
    specLineImpact dbC3 1 2 = (10, 4) ∧
    ((0 : ℚ), (0 : ℚ)) ≠ ((10 : ℚ), (4 : ℚ)) := by
  refine ⟨rfl, rfl, ?_, by decide⟩
  simp [specLineImpact, dbC3, dbC1, b1, p1, imp1, smallestImpactRow, impactRowsFor,
    findProduct, List.foldl, List.filter]
  norm_num


/-- Claim C3, amended: a successful checkout copies the avoided-waste and
avoided-CO2 figures of each created line verbatim from the request payload;
the repair command `recompute_item_from_bundle` is the only per-line
recomputation and sums `quantity_per_bundle / base_quantity x factor` over
the components (never multiplying by the purchased bundle quantity), a
component without an impact row (or a zero base quantity) contributing
exactly zero; checkout succeeds with no impact rows at all. -/
theorem c3_line_impact_from_payload :
    (∀ (db : DB) (req : CheckoutRequest) (oid : ℕ),
      (checkout db req).2 = .created oid →
      ((checkout db req).1.orderItems.drop db.orderItems.length).map
          (fun oi => (oi.wasteKg, oi.co2Kg))
        = req.items.map (fun it => (it.wasteKg, it.co2Kg))) ∧
    (∀ (db : DB) (bid : ℕ) (comps : List (BundleComponent × Product)),
      ((db.bundleComponents.filter fun c => c.bundleId = bid).mapM
          (fun c => (findProduct db c.productId).map (fun p => (c, p)))) = some comps →
      recomputeItemFromBundle db bid = some
        (quantize3up ((comps.map fun cp => (componentRecomputeContribution db cp.1 cp.2).1).sum),
         quantize3up ((comps.map fun cp => (componentRecomputeContribution db cp.1 cp.2).2).sum))) ∧
    (∀ (db : DB) (c : BundleComponent) (p : Product),
      impactRowsFor db p.catalogEntryId p.unit = [] →
      componentRecomputeContribution db c p = (0, 0)) ∧
    (checkout { dbC3 with impacts := [] } reqC3).2 = .created 1 := by
  refine ⟨?_, ?_, ?_, rfl⟩
  · intro db req oid h
    unfold checkout checkoutCore at h ⊢
    by_cases hni : req.items = []
    · rw [if_pos hni] at h
      cases h
    · rw [if_neg hni] at h ⊢
      dsimp only at h ⊢
      revert h
      cases hco : checkoutItems (freshOrderId db) (withNewOrder db req) 0 0 req.items with
      | mk out locks =>
        cases out with
        | ok db2 st2 sv2 =>
          intro h
          have hproj := checkoutItems_ok_proj (freshOrderId db) req.items
            (withNewOrder db req) 0 0 db2 st2 sv2 (by rw [hco])
          dsimp only
          cases hfo : findOrder db2 (freshOrderId db) with
          | none =>
            rw [List.map_drop, updateRewardsForOrder_orderItems, hproj]
            have hlen : db.orderItems.length
                = ((withNewOrder db req).orderItems.map (fun oi => (oi.wasteKg, oi.co2Kg))).length := by
              simp [withNewOrder]
            rw [hlen, List.drop_left]
          | some o =>
            rw [List.map_drop, updateRewardsForOrder_orderItems]
            dsimp only
            rw [hproj]
            have hlen : db.orderItems.length
                = ((withNewOrder db req).orderItems.map (fun oi => (oi.wasteKg, oi.co2Kg))).length := by
              simp [withNewOrder]
            rw [hlen, List.drop_left]
        | ret db2 resp =>
          intro h
          have hne := checkoutItems_ret_not_created (freshOrderId db) req.items
            (withNewOrder db req) 0 0 db2 resp (by rw [hco]) oid
          exact absurd h hne
        | exc =>
          intro h
          cases h
  · intro db bid comps hm
    unfold recomputeItemFromBundle
    rw [hm]
    simp only [Option.map_some']
    have hfold := foldl_pair_sum comps
      (fun cp => (componentRecomputeContribution db cp.1 cp.2).1)
      (fun cp => (componentRecomputeContribution db cp.1 cp.2).2) 0 0
    rw [hfold]
    simp
  · intro db c p h
    unfold componentRecomputeContribution
    rw [h]
    rfl

theorem c3_line_impact_from_payload_witness :
    ((checkout dbC3 reqC3).1.orderItems.drop dbC3.orderItems.length).map
        (fun oi => (oi.wasteKg, oi.co2Kg))
      = reqC3.items.map (fun it => (it.wasteKg, it.co2Kg)) ∧
    recomputeItemFromBundle dbC3 1 = some
      (quantize3up ((([(⟨1, 1, 1⟩, p1)] : List (BundleComponent × Product)).map
          fun cp => (componentRecomputeContribution dbC3 cp.1 cp.2).1).sum),
       quantize3up ((([(⟨1, 1, 1⟩, p1)] : List (BundleComponent × Product)).map
          fun cp => (componentRecomputeContribution dbC3 cp.1 cp.2).2).sum)) ∧
    componentRecomputeContribution { dbC3 with impacts := [] } ⟨1, 1, 1⟩ p1 = (0, 0) :=
  ⟨c3_line_impact_from_payload.1 dbC3 reqC3 1 rfl, c3_line_impact_from_payload.2.1 dbC3 1 [(⟨1, 1, 1⟩, p1)] rfl,
   c3_line_impact_from_payload.2.2.1 { dbC3 with impacts := [] } ⟨1, 1, 1⟩ p1 rfl⟩


/-- Claim C4, counterexample: for a two-company bundle the frozen snapshot's
per-component entries carry no company or producer at all, and the single
bundle-level attribution names company 7 — the first component's company —
although the second component belongs to company 8. -/
theorem c4_snapshot_counterexample :
    ((checkout dbC4 reqC4).1.orderItems.map fun oi =>
      oi.snapshot.map fun s =>
        (s.companyId, s.producerId, s.products.map fun p => (p.companyId, p.producerId)))
      = [some (some 7, some 3, [(none, none), (none, none)])] ∧
    (checkout dbC4 reqC4).2 = .created 1 ∧
    p1.companyId = 7 ∧ p2.companyId = 8 ∧ ¬ (7 = 8) :=
  ⟨rfl, rfl, rfl, rfl, by decide⟩

/-- Claim C4, amended: the snapshot built at checkout stores one
company/producer quadruple per BUNDLE, resolved from the first component's
product's company, and records per component only product id, title,
per-bundle quantity and category — every per-component company and producer
field is `none`. -/
theorem c4_snapshot_company_per_bundle : ∀ (db : DB) (bundle : Bundle) (sb sa : ℤ)
    (comps : List (BundleComponent × Product)),
    (∀ p ∈ (mkBundleSnapshot db bundle sb sa comps).products,
        p.companyId = none ∧ p.companyName = none ∧ p.producerId = none ∧ p.producerName = none) ∧
    ((mkBundleSnapshot db bundle sb sa comps).products.map
        fun p => (p.productId, p.perBundleQuantity))
      = comps.map (fun cp => (cp.2.id, cp.1.quantity)) ∧
    (mkBundleSnapshot db bundle sb sa comps).companyId
      = comps.head?.bind (fun cp => (findCompany db cp.2.companyId).map fun c => c.id) ∧
    (mkBundleSnapshot db bundle sb sa comps).producerId
      = comps.head?.bind (fun cp => (findCompany db cp.2.companyId).bind
          fun c => (producerFromCompany db c).1) := by
  intro db bundle sb sa comps
  refine ⟨?_, ?_, ?_, ?_⟩
  · intro p hp
    simp only [mkBundleSnapshot, mkProductSnap, List.mem_map] at hp
    obtain ⟨cp, _, rfl⟩ := hp
    exact ⟨rfl, rfl, rfl, rfl⟩
  · show ((comps.map fun cp => mkProductSnap db cp.1 cp.2).map
        fun p => (p.productId, p.perBundleQuantity)) = _
    rw [List.map_map]
    rfl
  · cases h : comps.head? with
    | none => simp [mkBundleSnapshot, h]
    | some cp =>
      cases hc : findCompany db cp.2.companyId with
      | none => simp [mkBundleSnapshot, h, hc]
      | some c => simp [mkBundleSnapshot, h, hc]
  · cases h : comps.head? with
    | none => simp [mkBundleSnapshot, h]
    | some cp =>
      cases hc : findCompany db cp.2.companyId with
      | none => simp [mkBundleSnapshot, h, hc]
      | some c => simp [mkBundleSnapshot, h, hc]

theorem c4_snapshot_company_per_bundle_witness :
    ((mkBundleSnapshot dbC4 b1 5 4 (bundleComps dbC4 1)).products.map
        fun p => (p.productId, p.perBundleQuantity)) = [(1, 2), (2, 1)] ∧
    (mkBundleSnapshot dbC4 b1 5 4 (bundleComps dbC4 1)).companyId = some 7 ∧
    ({ productId := 1, productTitle := "Pommes", perBundleQuantity := 2,
       categoryId := some 1, categoryName := some "Fruits", companyId := none,
       companyName := none, producerId := none, producerName := none } : ProductSnap).companyId
      = none := by
  have h := c4_snapshot_company_per_bundle dbC4 b1 5 4 (bundleComps dbC4 1)
  refine ⟨?_, ?_, ?_⟩
  · rw [h.2.1]
    rfl
  · rw [h.2.2.1]
    rfl
  · exact (h.1 _ (by decide)).1


/-- Claim C5, counterexample: a checkout-created order whose snapshot names
producer 3 at bundle level leaves the buyer's `producers_supported` at 0:
`_collect_producer_ids_from_order` only reads per-component `company_id`
keys, which checkout never writes, and it has no live-graph fallback. -/
theorem c5_producer_ids_counterexample :
    (checkout dbC3 reqC3).2 = .created 1 ∧
    ((checkout dbC3 reqC3).1.orderItems.map fun oi => oi.snapshot.map fun s => s.producerId)
      = [some (some 3)] ∧
    collectProducerIdsFromOrder (checkout dbC3 reqC3).1 1 = ∅ ∧
    ((checkout dbC3 reqC3).1.progresses.map
        fun pr => (pr.userId, pr.producersSupported, pr.seenProducerIds))
      = [(9, 0, [])] := by
  refine ⟨rfl, rfl, rfl, ?_⟩
  simp [checkout, checkoutCore, dbC3, dbC1, reqC3, b1, p1, freshOrderId, checkoutItems,
    shortComponents, applyCheckoutItem, withNewOrder, initialOrder,
    findBundle, bundleComps, findProduct, decProductStock, decBundleStock, saveOrderItem,
    refreshParentOrder, findOrder, replaceOrder, updateTotals, activeItemsOf, freshItemId,
    mkBundleSnapshot, mkProductSnap, producerFromCompany, findCompany, co7, u3, cl1, cat1,
    calculateSavings, updateRewardsForOrder, defaultProgress, collectProducerIdsFromOrder,
    upsertProgress, grantRewards, insertSnapCompanies, quantize2, roundHalfEven]

/-- Claim C5, amended: reward progression collects the set of nonzero
`company_id` values found in the items' per-component snapshot entries
(producer ids and the live graph are never consulted), unions it into the
stored seen set — which therefore never shrinks — and sets
`producers_supported` to the cardinality of the union, i.e. the old
cardinality plus the number of previously unseen collected company ids. -/
theorem c5_reward_producer_collection :
    (∀ (db : DB) (oid cid : ℕ),
      cid ∈ collectProducerIdsFromOrder db oid
        ↔ cid ≠ 0 ∧ ∃ oi ∈ activeItemsOf db oid,
            ∃ p ∈ (oi.snapshot.elim [] fun sn => sn.products), p.companyId = some cid) ∧
    (∀ (db : DB) (oid : ℕ) (o : Order), findOrder db oid = some o →
      ∃ prog2,
        (updateRewardsForOrder db oid).progresses.find? (fun x => x.userId = o.userId)
          = some prog2 ∧
        prog2.seenProducerIds.toFinset
          = ((db.progresses.find? fun x => x.userId = o.userId).getD
              (defaultProgress o.userId)).seenProducerIds.toFinset
            ∪ collectProducerIdsFromOrder db oid ∧
        ((db.progresses.find? fun x => x.userId = o.userId).getD
            (defaultProgress o.userId)).seenProducerIds.toFinset
          ⊆ prog2.seenProducerIds.toFinset ∧
        prog2.producersSupported
          = ((((db.progresses.find? fun x => x.userId = o.userId).getD
                (defaultProgress o.userId)).seenProducerIds.toFinset
              ∪ collectProducerIdsFromOrder db oid).card : ℤ) ∧
        prog2.producersSupported
          = ((((db.progresses.find? fun x => x.userId = o.userId).getD
                (defaultProgress o.userId)).seenProducerIds.toFinset.card : ℤ))
            + (((collectProducerIdsFromOrder db oid
                \ ((db.progresses.find? fun x => x.userId = o.userId).getD
                    (defaultProgress o.userId)).seenProducerIds.toFinset).card : ℤ))) := by
  refine ⟨mem_collectProducerIds, ?_⟩
  intro db oid o hfo
  have huid : ((db.progresses.find? fun x => x.userId = o.userId).getD
      (defaultProgress o.userId)).userId = o.userId := by
    cases hf : db.progresses.find? fun x => x.userId = o.userId with
    | none => rfl
    | some x =>
      have := List.find?_some hf
      simpa using this
  unfold updateRewardsForOrder
  rw [hfo]
  dsimp only
  rw [grantRewards_progresses]
  have hfind := find?_upsertProgress_of_uid db.progresses
      { (db.progresses.find? fun x => x.userId = o.userId).getD (defaultProgress o.userId) with
        totalOrders := ((db.progresses.find? fun x => x.userId = o.userId).getD
          (defaultProgress o.userId)).totalOrders + 1
        totalWasteKg := quantize2 (((db.progresses.find? fun x => x.userId = o.userId).getD
          (defaultProgress o.userId)).totalWasteKg + o.wasteKg)
        totalCo2Kg := quantize2 (((db.progresses.find? fun x => x.userId = o.userId).getD
          (defaultProgress o.userId)).totalCo2Kg + o.co2Kg)
        totalSavingsEur := quantize2 (((db.progresses.find? fun x => x.userId = o.userId).getD
          (defaultProgress o.userId)).totalSavingsEur + o.savings)
        seenProducerIds := ((((db.progresses.find? fun x => x.userId = o.userId).getD
          (defaultProgress o.userId)).seenProducerIds.toFinset
            ∪ collectProducerIdsFromOrder db oid).sort (· ≤ ·))
        producersSupported := ((((((db.progresses.find? fun x => x.userId = o.userId).getD
          (defaultProgress o.userId)).seenProducerIds.toFinset
            ∪ collectProducerIdsFromOrder db oid).sort (· ≤ ·)).length : ℤ)) }
      o.userId huid
  refine ⟨_, hfind, ?_, ?_, ?_, ?_⟩
  · simp [Finset.sort_toFinset]
  · simp [Finset.sort_toFinset]
  · simp [Finset.length_sort]
  · simp only [Finset.length_sort]
    have hcard := Finset.card_sdiff_add_card
      (collectProducerIdsFromOrder db oid)
      (((db.progresses.find? fun x => x.userId = o.userId).getD
        (defaultProgress o.userId)).seenProducerIds.toFinset)
    rw [Finset.union_comm] at hcard
    omega


theorem c5_reward_producer_collection_witness :
    ((updateRewardsForOrder dbC6 1).progresses.find? (fun x => x.userId = o1.userId)).isSome ∧
    ¬ (0 ∈ collectProducerIdsFromOrder dbC6 1) := by
  constructor
  · obtain ⟨p2, hf, -⟩ := c5_reward_producer_collection.2 dbC6 1 o1 rfl
    rw [hf]
    rfl
  · rw [c5_reward_producer_collection.1 dbC6 1 0]
    simp


/-- Claim C6, counterexample: reward grants never pass `tier`, so running
progression twice for one order over two satisfied zero-threshold tiers
leaves two Reward rows with the identical (user, tier) pair (9, NULL) —
the (user, tier) uniqueness constraint never distinguishes grants. -/
theorem c6_duplicate_tier_counterexample :
    ((updateRewardsForOrder (updateRewardsForOrder dbC6 1) 1).rewards.map
        fun r => (r.userId, r.tierId))
      = [(9, none), (9, none)] := by
  norm_num [updateRewardsForOrder, findOrder, dbC6, o1, t1, t2, defaultProgress,
    collectProducerIdsFromOrder, activeItemsOf, upsertProgress, grantRewards,
    insertSnapCompanies, quantize2, roundHalfEven, List.find?, List.filter, List.filterMap]

/-- Claim C6, amended: every reward row created by progression has its tier
left NULL, and duplicate protection comes only from the re-check that skips
tiers whose TITLE the user already owns: when active tier titles are
pairwise distinct and each user's existing reward titles are, running
progression twice for the same order never produces two reward rows with
the same (user, title) — the duplicate attempt is a no-op. -/
theorem c6_reward_grant_dedup_by_title : ∀ (db : DB) (oid : ℕ),
    (∀ r ∈ ((updateRewardsForOrder (updateRewardsForOrder db oid) oid).rewards.drop
        db.rewards.length), r.tierId = none) ∧
    (((db.tiers.filter fun t => t.isActive).map fun t => t.title).Nodup →
     (∀ uid, ((db.rewards.filter fun r => r.userId = uid).map fun r => r.title).Nodup) →
     ∀ uid, (((updateRewardsForOrder (updateRewardsForOrder db oid) oid).rewards.filter
        fun r => r.userId = uid).map fun r => r.title).Nodup) := by
  intro db oid
  obtain ⟨u1, n1, he1, hp1, hs1⟩ := updateRewards_rewards_spec db oid
  obtain ⟨u2, n2, he2, hp2, hs2⟩ := updateRewards_rewards_spec (updateRewardsForOrder db oid) oid
  constructor
  · intro r hr
    rw [he2, he1, List.append_assoc, List.drop_left] at hr
    rcases List.mem_append.1 hr with h | h
    · exact (hp1 r h).1
    · exact (hp2 r h).1
  · intro htiers husers uid
    have step1 := updateRewards_titles_nodup_step db oid htiers husers
    have htiers1 : (((updateRewardsForOrder db oid).tiers.filter fun t => t.isActive).map
        fun t => t.title).Nodup := by
      rw [updateRewardsForOrder_tiers]
      exact htiers
    exact updateRewards_titles_nodup_step (updateRewardsForOrder db oid) oid htiers1 step1 uid

theorem c6_reward_grant_dedup_by_title_witness : (((updateRewardsForOrder (updateRewardsForOrder dbC6 1) 1).rewards.filter
    fun r => r.userId = 9).map fun r => r.title).Nodup :=
  (c6_reward_grant_dedup_by_title dbC6 1).2 (by decide) (fun uid => by simp [dbC6]) 9


/-- Claim C7, counterexample: `Order.update_totals` never touches
`subtotal`: on an order whose stored subtotal is 0 with one active item of
price 10, the recomputation leaves subtotal at 0, not the claimed
`sum of item.total_price` = 10. -/
theorem c7_update_totals_counterexample :
    (updateTotals dbC7 o7).subtotal = 0 ∧
    ((dbC7.orderItems.filter fun oi => oi.orderId = o7.id && oi.isActive).map
        fun oi => oi.totalPrice).sum = 10 ∧
    (0 : ℚ) ≠ 10 := by
  refine ⟨rfl, ?_, by decide⟩
  simp [dbC7, it7, o7]

/-- Claim C7, amended: `Order.update_totals` recomputes exactly the three
impact/savings totals as sums over the order's ACTIVE items and leaves
subtotal, shipping cost and total price untouched; it is pure and
idempotent — re-running it on an unchanged item set reproduces the same
order row. Subtotal and total price are instead written once by checkout. -/
theorem c7_update_totals_spec : ∀ (db : DB) (o : Order),
    (updateTotals db o).wasteKg = ((activeItemsOf db o.id).map fun oi => oi.wasteKg).sum ∧
    (updateTotals db o).co2Kg = ((activeItemsOf db o.id).map fun oi => oi.co2Kg).sum ∧
    (updateTotals db o).savings = ((activeItemsOf db o.id).map fun oi => oi.savings).sum ∧
    (updateTotals db o).subtotal = o.subtotal ∧
    (updateTotals db o).totalPrice = o.totalPrice ∧
    (updateTotals db o).shippingCost = o.shippingCost ∧
    updateTotals db (updateTotals db o) = updateTotals db o := by
  intro db o
  exact ⟨rfl, rfl, rfl, rfl, rfl, rfl, rfl⟩


/-- Claim C8, counterexample: a successful checkout that buys a published
bundle's entire stock leaves stock 0 but status still `published`: the
automatic flip lives in `ProductBundle.save`, and checkout decrements via a
queryset update that bypasses it. -/
theorem c8_status_flip_counterexample :
    (checkout dbC3 reqC8).2 = .created 1 ∧
    ((checkout dbC3 reqC8).1.bundles.map fun b => (b.id, b.stock, b.status))
      = [(1, 0, .published)] ∧
    BundleStatus.published ≠ BundleStatus.outOfStock :=
  ⟨rfl, rfl, by decide⟩

/-- Claim C8, amended: `ProductBundle.save` flips the status to
out_of_stock exactly when the bundle is published with zero stock (an
already out-of-stock bundle stays so); checkout itself never changes any
bundle's status, because its stock decrement is a queryset update that
bypasses `save`. -/
theorem c8_status_flip_on_save_only : ∀ (b : Bundle) (db : DB) (req : CheckoutRequest),
    ((productBundleSave b).status = .outOfStock ↔
      (b.status = .outOfStock ∨ (b.stock = 0 ∧ b.status = .published))) ∧
    ((checkout db req).1.bundles.map (fun x => (x.id, x.status))
      = db.bundles.map (fun x => (x.id, x.status))) := by
  intro b db req
  constructor
  · unfold productBundleSave
    split_ifs with h
    · simp [h.1, h.2]
    · exact (or_iff_left h).symm
  · unfold checkout checkoutCore
    by_cases hni : req.items = []
    · simp only [if_pos hni]
    · simp only [if_neg hni]
      have h := checkoutItems_bundles_idStatus (freshOrderId db) req.items
        (withNewOrder db req) 0 0
      revert h
      cases hco : checkoutItems (freshOrderId db) (withNewOrder db req) 0 0 req.items with
      | mk out locks =>
        cases out with
        | ok db2 st2 sv2 =>
          intro h
          dsimp only
          split
          · rw [updateRewardsForOrder_bundles]
            exact h
          · rw [updateRewardsForOrder_bundles]
            exact h
        | ret db2 resp =>
          intro h
          exact h
        | exc =>
          intro h
          rfl


/-- Claim C9, counterexample: a checkout over bundles requested in the order
[2, 1] locks exactly the two bundle rows in REQUEST order — descending ids,
not ascending — and never locks the component product row (product 2 of
bundle 2). -/
theorem c9_lock_trace_counterexample :
    checkoutLockTrace dbC9 reqC9 = [.bundleRow 2, .bundleRow 1] ∧
    (reqC9.items.map fun it => it.bundleId) = [2, 1] ∧
    (bundleComps dbC9 2).map (fun cp => cp.2.id) = [2] ∧
    LockedRow.productRow 2 ∉ checkoutLockTrace dbC9 reqC9 ∧
    ¬ 2 ≤ 1 :=
  ⟨rfl, rfl, rfl, by decide, by decide⟩

/-- Claim C9, amended: the rows a checkout locks with `select_for_update`
are bundle rows only — never component products — and they are locked in
request order: the lock trace's ids are exactly a prefix of the requested
bundle-id sequence (cut short at the first conflict or missing bundle). -/
theorem c9_lock_trace_bundles_only : ∀ (db : DB) (req : CheckoutRequest),
    ((checkoutLockTrace db req).all
      (fun r => match r with | .bundleRow _ => true | .productRow _ => false)) = true ∧
    ∃ k, (checkoutLockTrace db req).map LockedRow.rowId
          = (req.items.map (fun it => it.bundleId)).take k := by
  intro db req
  unfold checkoutLockTrace checkoutCore
  by_cases hni : req.items = []
  · simp only [if_pos hni, hni]
    exact ⟨rfl, 0, rfl⟩
  · simp only [if_neg hni]
    have h := checkoutItems_trace (freshOrderId db) req.items (withNewOrder db req) 0 0
    revert h
    cases hco : checkoutItems (freshOrderId db) (withNewOrder db req) 0 0 req.items with
    | mk out locks =>
      cases out with
      | ok db2 st2 sv2 => intro h; exact h
      | ret db2 resp => intro h; exact h
      | exc => intro h; exact h


/-- Claim C10: every full `OrderItem.save` first recomputes the stored
savings from the frozen snapshot prices ((original - discounted) x
quantity, 0 without a snapshot) and then refreshes the parent order's
waste/CO2/savings totals as sums over the order's currently ACTIVE items;
`soft_deactivate` marks the item inactive, after which it is absent from
every active-item set and the refreshed parent totals exclude it. Subtotal
and total price of the parent are untouched by both. -/
theorem c10_item_save_refreshes_totals : ∀ (db : DB) (oi : OrderItem) (itemId : ℕ) (o : Order),
    (((saveOrderItem db oi).orderItems.find? (fun x => x.id = oi.id)).map (fun x => x.savings)
        = some (calculateSavings oi.snapshot oi.quantity)) ∧
    (oi.orderId ≠ 0 → findOrder db oi.orderId = some o →
      ∃ o', findOrder (saveOrderItem db oi) oi.orderId = some o' ∧
        o'.wasteKg = ((activeItemsOf (saveOrderItem db oi) oi.orderId).map fun x => x.wasteKg).sum ∧
        o'.co2Kg = ((activeItemsOf (saveOrderItem db oi) oi.orderId).map fun x => x.co2Kg).sum ∧
        o'.savings = ((activeItemsOf (saveOrderItem db oi) oi.orderId).map fun x => x.savings).sum ∧
        o'.subtotal = o.subtotal ∧ o'.totalPrice = o.totalPrice) ∧
    (∀ x ∈ (softDeactivateItem db itemId).orderItems, x.id = itemId → x.isActive = false) ∧
    (∀ oid2, ∀ x ∈ activeItemsOf (softDeactivateItem db itemId) oid2, x.id ≠ itemId) ∧
    (∀ oi0, db.orderItems.find? (fun x => x.id = itemId) = some oi0 → oi0.orderId ≠ 0 →
      findOrder db oi0.orderId = some o →
      ∃ o', findOrder (softDeactivateItem db itemId) oi0.orderId = some o' ∧
        o'.wasteKg = ((activeItemsOf (softDeactivateItem db itemId) oi0.orderId).map
            fun x => x.wasteKg).sum ∧
        o'.co2Kg = ((activeItemsOf (softDeactivateItem db itemId) oi0.orderId).map
            fun x => x.co2Kg).sum ∧
        o'.savings = ((activeItemsOf (softDeactivateItem db itemId) oi0.orderId).map
            fun x => x.savings).sum ∧
        o'.subtotal = o.subtotal ∧ o'.totalPrice = o.totalPrice) := by
  intro db oi itemId o
  exact ⟨saveOrderItem_stored_savings db oi,
    fun h0 hfo => saveOrderItem_parent_spec db oi o h0 hfo,
    softDeactivate_inactive db itemId,
    softDeactivate_active_ne db itemId,
    fun oi0 hfind h0 hfo => softDeactivate_parent_spec db itemId oi0 o hfind h0 hfo⟩

theorem c10_item_save_refreshes_totals_witness :
    (((saveOrderItem dbC7 it7).orderItems.find? (fun x => x.id = it7.id)).map (fun x => x.savings)
        = some (calculateSavings it7.snapshot it7.quantity)) ∧
    (findOrder (saveOrderItem dbC7 it7) it7.orderId).isSome ∧
    (findOrder (softDeactivateItem dbC7 1) it7.orderId).isSome := by
  obtain ⟨h1, h2, h3, h4, h5⟩ := c10_item_save_refreshes_totals dbC7 it7 1 o7
  refine ⟨h1, ?_, ?_⟩
  · obtain ⟨o', ho, -⟩ := h2 (by decide) rfl
    rw [ho]
    rfl
  · obtain ⟨o', ho, -⟩ := h5 it7 rfl (by decide) rfl
    rw [ho]
    rfl

end GreenCart
